import Mathlib

/-!
# mc_clock: a calendar/clock value object

Shallow embedding of `mc_clock.c` and proofs about it.

Conventions of the embedding:
* `uint8_t` / `uint16_t` values are `Nat`, with an explicit `% 256` / `% 65536`
  wherever the C code increments, decrements or narrows a value;
* `int32_t` / `int64_t` values are `Int`; 32-bit wraparound is `wrap32`;
* a function returns `none` when the C code would read the table `dim`
  outside its twelve entries (or when a `while (1)` loop has used up the
  iteration budget given to it), `some r` when it returns `r`.
-/

namespace McClock

set_option maxRecDepth 100000

/-! ## Machine integers -/

def INT32_MAX : Int := 2147483647

def INT32_MIN : Int := -2147483648

/-- Conversion of a signed value to `uint8_t`. -/
def u8 (x : Int) : Nat := (x % 256).toNat

/-- Conversion of a signed value to `uint16_t`. -/
def u16 (x : Int) : Nat := (x % 65536).toNat

/-- Two's complement wraparound of a signed value into `int32_t`. -/
def wrap32 (x : Int) : Int := (x + 2147483648) % 4294967296 - 2147483648

/-- Default timestamp, 01/jan/2020 12:00:00 AM. -/
def DEFAULT_TIMESTAMP : Int := 1577836800

/-! ## Data model -/

structure clock_datetime_t where
  year : Nat
  month : Nat
  day : Nat
  hour : Nat
  minute : Nat
  second : Nat
deriving DecidableEq

structure clock_t where
  timestamp : Int
  datetime : clock_datetime_t
deriving DecidableEq

/-! ## Private functions -/

def is_leap_year (year : Nat) : Bool :=
  (year % 4 == 0 && year % 100 != 0) || (year % 400 == 0)

/-- The table `dim` of `days_in_month`. -/
def dim : List Nat := [31, 28, 31, 30, 31, 30, 31, 31, 30, 31, 30, 31]

/-- `days_in_month(month, year)`; `none` when `dim[month - 1]` is outside the table. -/
def days_in_month (month year : Nat) : Option Nat :=
  if month == 2 && is_leap_year year then some 29
  else if month == 0 then none
  else dim[month - 1]?

/-- Length in days of a year, `is_leap_year(y) ? 366 : 365`. -/
def year_len (y : Nat) : Int := if is_leap_year y then 366 else 365

/-- The forward `while (1)` loop of `Mc_Clock_Timestamp_To_Human_Date`
(`days >= 0`), on the pair `(days, year)`. -/
def year_loop_fwd : Nat → Int → Int → Option (Int × Int)
  | 0, _, _ => none
  | fuel + 1, days, year =>
    let d := year_len (u16 year)
    if days < d then some (days, year)
    else year_loop_fwd fuel (days - d) (year + 1)

/-- The backward `while (1)` loop of `Mc_Clock_Timestamp_To_Human_Date`
(`days < 0`), on the pair `(days, year)`. -/
def year_loop_bwd : Nat → Int → Int → Option (Int × Int)
  | 0, _, _ => none
  | fuel + 1, days, year =>
    let prev_year := year - 1
    let d := year_len (u16 prev_year)
    let days := days + d
    if days ≥ 0 then some (days, prev_year)
    else year_loop_bwd fuel days prev_year

/-- The month `while (1)` loop of `Mc_Clock_Timestamp_To_Human_Date`,
on the pair `(days, t.month)`. -/
def month_loop : Nat → Int → Nat → Nat → Option (Int × Nat)
  | 0, _, _, _ => none
  | fuel + 1, days, month, year =>
    match days_in_month month year with
    | none => none
    | some d =>
      if days < (d : Int) then some (days, month)
      else month_loop fuel (days - d) ((month + 1) % 256) year

def Mc_Clock_Timestamp_To_Human_Date (timestamp : Int) : Option clock_datetime_t :=
  let days0 := Int.tdiv timestamp 86400
  let seconds0 := Int.tmod timestamp 86400
  let seconds := if seconds0 < 0 then seconds0 + 86400 else seconds0
  let days := if seconds0 < 0 then days0 - 1 else days0
  let hour := u8 (Int.tdiv seconds 3600)
  let seconds1 := Int.tmod seconds 3600
  let minute := u8 (Int.tdiv seconds1 60)
  let second := u8 (Int.tmod seconds1 60)
  let years :=
    if days ≥ 0 then year_loop_fwd (days.natAbs + 1) days 1970
    else year_loop_bwd (days.natAbs + 1) days 1970
  match years with
  | none => none
  | some (days, year) =>
    match month_loop 13 days 1 (u16 year) with
    | none => none
    | some (days, month) =>
      some { year := u16 year, month := month, day := u8 (days + 1),
             hour := hour, minute := minute, second := second }

/-- The year loops of `Mc_Clock_Human_Date_To_Timestamp`: the day count of
1 January of `year`, relative to 1 January 1970. -/
def year_days (year : Nat) : Int :=
  if year ≥ 1970 then
    (List.range' 1970 (year - 1970)).foldl (fun days y => days + year_len y) 0
  else
    ((List.range' year (1970 - year)).reverse).foldl (fun days y => days - year_len y) 0

/-- The month loop of `Mc_Clock_Human_Date_To_Timestamp`,
`for (m = 1; m < t->month; m++) days += days_in_month(m, t->year)`. -/
def month_days (days : Int) (month year : Nat) : Option Int :=
  (List.range' 1 (month - 1)).foldlM
    (fun days m => (days_in_month m year).map (fun d => days + (d : Int))) days

/-- The 64-bit value of `Mc_Clock_Human_Date_To_Timestamp` before saturation. -/
def civil_seconds (t : clock_datetime_t) : Option Int :=
  (month_days (year_days t.year) t.month t.year).map (fun days =>
    (days + ((t.day : Int) - 1)) * 86400
      + (t.hour : Int) * 3600 + (t.minute : Int) * 60 + (t.second : Int))

/-- The saturation at the end of `Mc_Clock_Human_Date_To_Timestamp`. -/
def saturate (timestamp : Int) : Int :=
  if timestamp > INT32_MAX then INT32_MAX
  else if timestamp < INT32_MIN then INT32_MIN
  else timestamp

def Mc_Clock_Human_Date_To_Timestamp (t : clock_datetime_t) : Option Int :=
  (civil_seconds t).map saturate

/-! ## Public functions

A clock object is the value of its `clock_t`; each operation maps the value
before the call to the value after it. -/

/-- The statement `_clock->timestamp = Mc_Clock_Human_Date_To_Timestamp(&(_clock->datetime))`
that ends every field operation, for the civil fields `dt`. -/
def update_timestamp (dt : clock_datetime_t) : Option clock_t :=
  (Mc_Clock_Human_Date_To_Timestamp dt).map (fun ts => { timestamp := ts, datetime := dt })

/-- The statements `_clock->timestamp = ts` and
`_clock->datetime = Mc_Clock_Timestamp_To_Human_Date(ts)` of every timestamp operation. -/
def update_datetime (ts : Int) : Option clock_t :=
  (Mc_Clock_Timestamp_To_Human_Date ts).map (fun dt => { timestamp := ts, datetime := dt })

/-- The block `dim = days_in_month(month, year); if (day > dim) day = dim;`
followed by the update of the timestamp. -/
def clamp_day_update (dt : clock_datetime_t) : Option clock_t :=
  match days_in_month dt.month dt.year with
  | none => none
  | some d => update_timestamp (if dt.day > d then { dt with day := d } else dt)

def Mc_Clock_New : Option clock_t :=
  update_datetime DEFAULT_TIMESTAMP

def Mc_Clock_Clone (clock : clock_t) : Option clock_t :=
  Mc_Clock_New.map (fun p => { p with datetime := clock.datetime, timestamp := clock.timestamp })

def Mc_Clock_Clear_Time (clock : clock_t) : Option clock_t :=
  update_timestamp { clock.datetime with hour := 0, minute := 0, second := 0 }

def Mc_Clock_Clear_DateTime (_clock : clock_t) : Option clock_t :=
  update_datetime DEFAULT_TIMESTAMP

def Mc_Clock_Set_Timestamp (_clock : clock_t) (timestamp : Int) : Option clock_t :=
  update_datetime timestamp

def Mc_Clock_Set_Second (clock : clock_t) (second : Nat) : Option clock_t :=
  if second > 59 then some clock
  else update_timestamp { clock.datetime with second := second }

def Mc_Clock_Set_Minute (clock : clock_t) (minute : Nat) : Option clock_t :=
  if minute > 59 then some clock
  else update_timestamp { clock.datetime with minute := minute }

def Mc_Clock_Set_Hour (clock : clock_t) (hour : Nat) : Option clock_t :=
  if hour > 23 then some clock
  else update_timestamp { clock.datetime with hour := hour }

def Mc_Clock_Set_Time (clock : clock_t) (hour minute second : Nat) : Option clock_t :=
  (Mc_Clock_Set_Hour clock hour).bind (fun c1 =>
    (Mc_Clock_Set_Minute c1 minute).bind (fun c2 =>
      Mc_Clock_Set_Second c2 second))

def Mc_Clock_Set_Day (clock : clock_t) (day : Nat) : Option clock_t :=
  if day == 0 || day > 31 then some clock
  else
    match days_in_month clock.datetime.month clock.datetime.year with
    | none => none
    | some d =>
      if day > d then some clock
      else update_timestamp { clock.datetime with day := day }

def Mc_Clock_Set_Month (clock : clock_t) (month : Nat) : Option clock_t :=
  if month > 12 || month == 0 then some clock
  else clamp_day_update { clock.datetime with month := month }

def Mc_Clock_Set_Year (clock : clock_t) (year : Nat) : Option clock_t :=
  if year > 2036 || year < 1901 then some clock
  else clamp_day_update { clock.datetime with year := year }

def Mc_Clock_Set_Date (clock : clock_t) (year month day : Nat) : Option clock_t :=
  (Mc_Clock_Set_Year clock year).bind (fun c1 =>
    (Mc_Clock_Set_Month c1 month).bind (fun c2 =>
      Mc_Clock_Set_Day c2 day))

def Mc_Clock_Get_Timestamp (clock : clock_t) : Int := clock.timestamp

def Mc_Clock_Get_Second (clock : clock_t) : Nat := clock.datetime.second

def Mc_Clock_Get_Minute (clock : clock_t) : Nat := clock.datetime.minute

def Mc_Clock_Get_Hour (clock : clock_t) : Nat := clock.datetime.hour

def Mc_Clock_Get_Day (clock : clock_t) : Nat := clock.datetime.day

def Mc_Clock_Get_Month (clock : clock_t) : Nat := clock.datetime.month

def Mc_Clock_Get_Year (clock : clock_t) : Nat := clock.datetime.year

def Mc_Clock_Increment_Timestamp (clock : clock_t) : Option clock_t :=
  update_datetime (wrap32 (clock.timestamp + 1))

def Mc_Clock_Increment_Timestamp_Value (clock : clock_t) (value : Int) : Option clock_t :=
  update_datetime (wrap32 (clock.timestamp + value))

def Mc_Clock_Increment_Second (clock : clock_t) : Option clock_t :=
  update_timestamp { clock.datetime with
    second := if clock.datetime.second == 59 then 0 else (clock.datetime.second + 1) % 256 }

def Mc_Clock_Increment_Minute (clock : clock_t) : Option clock_t :=
  update_timestamp { clock.datetime with
    minute := if clock.datetime.minute == 59 then 0 else (clock.datetime.minute + 1) % 256 }

def Mc_Clock_Increment_Hour (clock : clock_t) : Option clock_t :=
  update_timestamp { clock.datetime with
    hour := if clock.datetime.hour == 23 then 0 else (clock.datetime.hour + 1) % 256 }

def Mc_Clock_Increment_Day (clock : clock_t) : Option clock_t :=
  match days_in_month clock.datetime.month clock.datetime.year with
  | none => none
  | some d =>
    update_timestamp { clock.datetime with
      day := if clock.datetime.day == d then 1 else (clock.datetime.day + 1) % 256 }

def Mc_Clock_Increment_Month (clock : clock_t) : Option clock_t :=
  clamp_day_update { clock.datetime with
    month := if clock.datetime.month == 12 then 1 else (clock.datetime.month + 1) % 256 }

def Mc_Clock_Increment_Year (clock : clock_t) : Option clock_t :=
  clamp_day_update { clock.datetime with year := (clock.datetime.year + 1) % 65536 }

def Mc_Clock_Decrement_Timestamp (clock : clock_t) : Option clock_t :=
  update_datetime (wrap32 (clock.timestamp - 1))

def Mc_Clock_Decrement_Timestamp_Value (clock : clock_t) (value : Int) : Option clock_t :=
  update_datetime (wrap32 (clock.timestamp - value))

def Mc_Clock_Decrement_Second (clock : clock_t) : Option clock_t :=
  update_timestamp { clock.datetime with
    second := if clock.datetime.second == 0 then 59 else (clock.datetime.second + 255) % 256 }

def Mc_Clock_Decrement_Minute (clock : clock_t) : Option clock_t :=
  update_timestamp { clock.datetime with
    minute := if clock.datetime.minute == 0 then 59 else (clock.datetime.minute + 255) % 256 }

def Mc_Clock_Decrement_Hour (clock : clock_t) : Option clock_t :=
  update_timestamp { clock.datetime with
    hour := if clock.datetime.hour == 0 then 23 else (clock.datetime.hour + 255) % 256 }

def Mc_Clock_Decrement_Day (clock : clock_t) : Option clock_t :=
  if clock.datetime.day == 1 then
    match days_in_month clock.datetime.month clock.datetime.year with
    | none => none
    | some d => update_timestamp { clock.datetime with day := d }
  else
    update_timestamp { clock.datetime with day := (clock.datetime.day + 255) % 256 }

def Mc_Clock_Decrement_Month (clock : clock_t) : Option clock_t :=
  clamp_day_update { clock.datetime with
    month := if clock.datetime.month == 1 then 12 else (clock.datetime.month + 255) % 256 }

def Mc_Clock_Decrement_Year (clock : clock_t) : Option clock_t :=
  clamp_day_update { clock.datetime with
    year := if clock.datetime.year == 1970 then 1970 else (clock.datetime.year + 65535) % 65536 }

/-! ## Sequences of public operations -/

/-- One call of a public operation that yields a clock value, with its arguments. -/
inductive Op where
  | clone
  | clear_time
  | clear_datetime
  | set_timestamp (timestamp : Int)
  | set_second (second : Nat)
  | set_minute (minute : Nat)
  | set_hour (hour : Nat)
  | set_time (hour minute second : Nat)
  | set_day (day : Nat)
  | set_month (month : Nat)
  | set_year (year : Nat)
  | set_date (year month day : Nat)
  | increment_timestamp
  | increment_timestamp_value (value : Int)
  | increment_second
  | increment_minute
  | increment_hour
  | increment_day
  | increment_month
  | increment_year
  | decrement_timestamp
  | decrement_timestamp_value (value : Int)
  | decrement_second
  | decrement_minute
  | decrement_hour
  | decrement_day
  | decrement_month
  | decrement_year

/-- The arguments of the call fit their C types
(`uint8_t`, `uint16_t`, `int32_t`). -/
def Op.well_typed : Op → Bool
  | .set_timestamp ts => decide (INT32_MIN ≤ ts ∧ ts ≤ INT32_MAX)
  | .set_second v => decide (v < 256)
  | .set_minute v => decide (v < 256)
  | .set_hour v => decide (v < 256)
  | .set_time h m s => decide (h < 256 ∧ m < 256 ∧ s < 256)
  | .set_day v => decide (v < 256)
  | .set_month v => decide (v < 256)
  | .set_year v => decide (v < 65536)
  | .set_date y m d => decide (y < 65536 ∧ m < 256 ∧ d < 256)
  | .increment_timestamp_value v => decide (INT32_MIN ≤ v ∧ v ≤ INT32_MAX)
  | .decrement_timestamp_value v => decide (INT32_MIN ≤ v ∧ v ≤ INT32_MAX)
  | _ => true

/-- The clock value after the call, from the clock value before it. -/
def Op.apply : Op → clock_t → Option clock_t
  | .clone, c => Mc_Clock_Clone c
  | .clear_time, c => Mc_Clock_Clear_Time c
  | .clear_datetime, c => Mc_Clock_Clear_DateTime c
  | .set_timestamp ts, c => Mc_Clock_Set_Timestamp c ts
  | .set_second v, c => Mc_Clock_Set_Second c v
  | .set_minute v, c => Mc_Clock_Set_Minute c v
  | .set_hour v, c => Mc_Clock_Set_Hour c v
  | .set_time h m s, c => Mc_Clock_Set_Time c h m s
  | .set_day v, c => Mc_Clock_Set_Day c v
  | .set_month v, c => Mc_Clock_Set_Month c v
  | .set_year v, c => Mc_Clock_Set_Year c v
  | .set_date y m d, c => Mc_Clock_Set_Date c y m d
  | .increment_timestamp, c => Mc_Clock_Increment_Timestamp c
  | .increment_timestamp_value v, c => Mc_Clock_Increment_Timestamp_Value c v
  | .increment_second, c => Mc_Clock_Increment_Second c
  | .increment_minute, c => Mc_Clock_Increment_Minute c
  | .increment_hour, c => Mc_Clock_Increment_Hour c
  | .increment_day, c => Mc_Clock_Increment_Day c
  | .increment_month, c => Mc_Clock_Increment_Month c
  | .increment_year, c => Mc_Clock_Increment_Year c
  | .decrement_timestamp, c => Mc_Clock_Decrement_Timestamp c
  | .decrement_timestamp_value v, c => Mc_Clock_Decrement_Timestamp_Value c v
  | .decrement_second, c => Mc_Clock_Decrement_Second c
  | .decrement_minute, c => Mc_Clock_Decrement_Minute c
  | .decrement_hour, c => Mc_Clock_Decrement_Hour c
  | .decrement_day, c => Mc_Clock_Decrement_Day c
  | .decrement_month, c => Mc_Clock_Decrement_Month c
  | .decrement_year, c => Mc_Clock_Decrement_Year c

/-- The clock values reachable from `Mc_Clock_New()` by public operations. -/
inductive Reachable : clock_t → Prop where
  | new (c : clock_t) (h : Mc_Clock_New = some c) : Reachable c
  | step (op : Op) (c c1 : clock_t) (hc : Reachable c) (ht : op.well_typed = true)
      (h : op.apply c = some c1) : Reachable c1

/-- The clock value after a list of calls, first call first. -/
def run : List Op → clock_t → Option clock_t
  | [], c => some c
  | op :: ops, c => (op.apply c).bind (run ops)

/-! ## Specification vocabulary -/

/-- The value is an `int32_t`. -/
def is_int32 (x : Int) : Prop := INT32_MIN ≤ x ∧ x ≤ INT32_MAX

instance (x : Int) : Decidable (is_int32 x) := by
  unfold is_int32; infer_instance

/-- `DaysInMonth(month, year)` as a number; `0` where `days_in_month` has no value. -/
def month_len (month year : Nat) : Nat := (days_in_month month year).getD 0

/-- The civil fields are those of a date and time of day:
`1 ≤ month ≤ 12`, `1 ≤ day ≤ DaysInMonth(month, year)`, `hour ≤ 23`,
`minute ≤ 59`, `second ≤ 59`. -/
def valid_fields (t : clock_datetime_t) : Prop :=
  1 ≤ t.month ∧ t.month ≤ 12 ∧ 1 ≤ t.day ∧ t.day ≤ month_len t.month t.year
    ∧ t.hour ≤ 23 ∧ t.minute ≤ 59 ∧ t.second ≤ 59

instance (t : clock_datetime_t) : Decidable (valid_fields t) := by
  unfold valid_fields; infer_instance

/-- The state invariant of a clock: valid civil fields, a year that fits
`uint16_t`, and a timestamp that is the conversion of the civil fields. -/
def clock_inv (c : clock_t) : Prop :=
  valid_fields c.datetime ∧ c.datetime.year < 65536
    ∧ Mc_Clock_Human_Date_To_Timestamp c.datetime = some c.timestamp

/-- Reference: the day number of the proleptic Gregorian date `y-m-d` counted
from 1970-01-01, in closed form (the `days_from_civil` formula on eras of
400 years that start on 1 March). -/
def days_from_civil (y m d : Int) : Int :=
  let y1 := if m ≤ 2 then y - 1 else y
  let era := y1 / 400
  let yoe := y1 - era * 400
  let mp := (m + 9) % 12
  let doy := (153 * mp + 2) / 5 + d - 1
  let doe := yoe * 365 + yoe / 4 - yoe / 100 + doy
  era * 146097 + doe - 719468

/-- Reference: the seconds from 1970-01-01 00:00:00 to the civil date-time,
unbounded. -/
def seconds_from_civil (t : clock_datetime_t) : Int :=
  days_from_civil t.year t.month t.day * 86400
    + (t.hour : Int) * 3600 + (t.minute : Int) * 60 + (t.second : Int)

/-- Day number of 1 January of year `y`, counted from 1 January of year 0,
in closed form. -/
def jan1 (y : Int) : Int := 365 * y + (y - 1) / 4 - (y - 1) / 100 + (y - 1) / 400

/-- Day of the year (from 0) of the first day of a month. -/
def month_start (month : Nat) (leap : Bool) : Int :=
  match month with
  | 1 => 0
  | 2 => 31
  | 3 => if leap then 60 else 59
  | 4 => if leap then 91 else 90
  | 5 => if leap then 121 else 120
  | 6 => if leap then 152 else 151
  | 7 => if leap then 182 else 181
  | 8 => if leap then 213 else 212
  | 9 => if leap then 244 else 243
  | 10 => if leap then 274 else 273
  | 11 => if leap then 305 else 304
  | 12 => if leap then 335 else 334
  | _ => if leap then 366 else 365

/-! ## Calendar arithmetic -/

theorem is_leap_year_iff (y : Nat) :
    is_leap_year y = true ↔ (y % 4 = 0 ∧ y % 100 ≠ 0) ∨ y % 400 = 0 := by
  simp [is_leap_year]

theorem year_len_eq_jan1 (y : Nat) : year_len y = jan1 ((y : Int) + 1) - jan1 y := by
  unfold year_len jan1
  by_cases h : is_leap_year y = true
  · rw [if_pos h]
    rw [is_leap_year_iff] at h
    omega
  · rw [if_neg h]
    rw [is_leap_year_iff] at h
    omega

theorem year_len_pos (y : Nat) : 365 ≤ year_len y ∧ year_len y ≤ 366 := by
  unfold year_len; split <;> omega

theorem jan1_mono (a b : Int) (h : a ≤ b) : jan1 a ≤ jan1 b := by
  unfold jan1; omega

theorem days_in_month_some (m y : Nat) (h1 : 1 ≤ m) (h2 : m ≤ 12) :
    days_in_month m y = some (month_len m y) := by
  unfold month_len
  interval_cases m <;> cases h : is_leap_year y <;> simp [days_in_month, dim, h]

theorem month_len_step (m y : Nat) (h1 : 1 ≤ m) (h2 : m ≤ 12) :
    month_start (m + 1) (is_leap_year y) = month_start m (is_leap_year y) + month_len m y := by
  unfold month_len
  interval_cases m <;> cases h : is_leap_year y <;> simp [days_in_month, dim, h, month_start]

theorem month_len_bounds (m y : Nat) (h1 : 1 ≤ m) (h2 : m ≤ 12) :
    28 ≤ month_len m y ∧ month_len m y ≤ 31 := by
  unfold month_len
  interval_cases m <;> cases h : is_leap_year y <;> simp [days_in_month, dim, h]

theorem days_in_month_none (m y : Nat) (h : m = 0 ∨ 13 ≤ m) : days_in_month m y = none := by
  unfold days_in_month
  rcases h with h | h
  · subst h; simp
  · have h2 : ¬ m = 2 := by omega
    have h0 : ¬ m = 0 := by omega
    simp [h2, h0, dim]
    omega

theorem month_start_13 (y : Nat) : month_start 13 (is_leap_year y) = year_len y := by
  unfold year_len; simp [month_start]

theorem u16_eq (x : Int) (h0 : 0 ≤ x) (h1 : x < 65536) : u16 x = x.toNat := by
  unfold u16; congr 1; omega

theorem u16_cast (x : Int) (h0 : 0 ≤ x) (h1 : x < 65536) : ((u16 x : Nat) : Int) = x := by
  rw [u16_eq x h0 h1]; omega

theorem year_loop_fwd_spec : ∀ (fuel : Nat) (days year : Int),
    0 ≤ days → days < fuel → 0 ≤ year → year + days < 65536 →
    ∃ r Y, year_loop_fwd fuel days year = some (r, Y) ∧ year ≤ Y ∧ Y < 65536 ∧ 0 ≤ r
      ∧ r < year_len (u16 Y) ∧ jan1 Y + r = jan1 year + days := by
  intro fuel
  induction fuel with
  | zero => intro days year h0 h1; omega
  | succ n ih =>
    intro days year h0 h1 hy hb
    unfold year_loop_fwd
    have hlen := year_len_pos (u16 year)
    have hj := year_len_eq_jan1 (u16 year)
    rw [u16_cast year hy (by omega)] at hj
    by_cases hlt : days < year_len (u16 year)
    · simp only [hlt, if_true]
      exact ⟨days, year, rfl, le_refl _, by omega, h0, hlt, rfl⟩
    · simp only [hlt, if_false]
      obtain ⟨r, Y, he, h2, h3, h4, h5, h6⟩ :=
        ih (days - year_len (u16 year)) (year + 1) (by omega) (by omega) (by omega) (by omega)
      exact ⟨r, Y, he, by omega, h3, h4, h5, by omega⟩

theorem year_loop_bwd_spec : ∀ (fuel : Nat) (days year : Int),
    days < 0 → -days ≤ fuel → 0 ≤ 365 * year + days → year ≤ 65536 →
    ∃ r Y, year_loop_bwd fuel days year = some (r, Y) ∧ 0 ≤ Y ∧ Y < year ∧ 0 ≤ r
      ∧ r < year_len (u16 Y) ∧ jan1 Y + r = jan1 year + days := by
  intro fuel
  induction fuel with
  | zero => intro days year h0 h1; omega
  | succ n ih =>
    intro days year h0 h1 hy hb
    unfold year_loop_bwd
    have hlen := year_len_pos (u16 (year - 1))
    have hj := year_len_eq_jan1 (u16 (year - 1))
    rw [u16_cast (year - 1) (by omega) (by omega)] at hj
    simp only [sub_add_cancel] at hj
    by_cases hge : days + year_len (u16 (year - 1)) ≥ 0
    · simp only [hge, if_true]
      exact ⟨_, _, rfl, by omega, by omega, hge, by omega, by omega⟩
    · simp only [hge, if_false]
      obtain ⟨r, Y, he, h2, h3, h4, h5, h6⟩ :=
        ih (days + year_len (u16 (year - 1))) (year - 1) (by omega) (by omega) (by omega)
          (by omega)
      exact ⟨r, Y, he, h2, by omega, h4, h5, by omega⟩

theorem month_loop_spec (y : Nat) : ∀ (fuel m : Nat) (days : Int),
    1 ≤ m → m ≤ 12 → 13 ≤ fuel + m → 0 ≤ days →
    days + month_start m (is_leap_year y) < year_len y →
    ∃ r M, month_loop fuel days m y = some (r, M) ∧ m ≤ M ∧ M ≤ 12 ∧ 0 ≤ r
      ∧ r < month_len M y
      ∧ month_start M (is_leap_year y) + r = month_start m (is_leap_year y) + days := by
  intro fuel
  induction fuel with
  | zero => intro m days h1 h2 h3; omega
  | succ n ih =>
    intro m days h1 h2 h3 h4 h5
    unfold month_loop
    rw [days_in_month_some m y h1 h2]
    have hs := month_len_step m y h1 h2
    by_cases hlt : days < (month_len m y : Int)
    · simp only [hlt, if_true]
      exact ⟨days, m, rfl, le_refl _, h2, h4, hlt, rfl⟩
    · simp only [hlt, if_false]
      have hm : m + 1 ≤ 12 := by
        by_contra hc
        have : m = 12 := by omega
        subst this
        have := month_start_13 y
        simp only [Nat.reduceAdd] at hs
        omega
      have hmod : (m + 1) % 256 = m + 1 := by omega
      rw [hmod]
      obtain ⟨r, M, he, h6, h7, h8, h9, h10⟩ :=
        ih (m + 1) (days - month_len m y) (by omega) hm (by omega) (by omega) (by omega)
      exact ⟨r, M, he, by omega, h7, h8, h9, by omega⟩

theorem fold_years_up (a : Nat) : ∀ (n : Nat) (d0 : Int),
    (List.range' a n).foldl (fun days y => days + year_len y) d0
      = d0 + (jan1 ((a : Int) + n) - jan1 a) := by
  intro n
  induction n with
  | zero => intro d0; simp
  | succ k ih =>
    intro d0
    rw [List.range'_concat, List.foldl_append, ih]
    simp only [List.foldl_cons, List.foldl_nil, one_mul]
    have := year_len_eq_jan1 (a + k)
    push_cast at this ⊢
    rw [← add_assoc]
    omega

theorem fold_years_down : ∀ (n a : Nat) (d0 : Int),
    ((List.range' a n).reverse).foldl (fun days y => days - year_len y) d0
      = d0 - (jan1 ((a : Int) + n) - jan1 a) := by
  intro n
  induction n with
  | zero => intro a d0; simp
  | succ k ih =>
    intro a d0
    rw [List.range'_concat, List.reverse_append]
    simp only [List.reverse_cons, List.reverse_nil, List.nil_append, List.singleton_append,
      List.foldl_cons, one_mul]
    rw [ih]
    have := year_len_eq_jan1 (a + k)
    push_cast at this ⊢
    rw [← add_assoc]
    omega

theorem year_days_eq (year : Nat) : year_days year = jan1 year - jan1 1970 := by
  unfold year_days
  split
  · rename_i h
    rw [fold_years_up]
    have : ((1970 : Nat) : Int) + ((year - 1970 : Nat) : Int) = year := by omega
    rw [this]; simp
  · rename_i h
    rw [fold_years_down]
    have : (year : Int) + ((1970 - year : Nat) : Int) = 1970 := by omega
    rw [this]; simp

theorem month_days_eq (d0 : Int) (m y : Nat) (h1 : 1 ≤ m) (h2 : m ≤ 12) :
    month_days d0 m y = some (d0 + month_start m (is_leap_year y)) := by
  unfold month_days
  interval_cases m <;> cases h : is_leap_year y <;>
    simp [List.range', days_in_month, dim, h, month_start] <;> omega

/-- Day number of a civil date from 1970-01-01, through `jan1` and `month_start`. -/
theorem civil_seconds_eq (t : clock_datetime_t) (h1 : 1 ≤ t.month) (h2 : t.month ≤ 12) :
    civil_seconds t = some ((jan1 t.year - jan1 1970 + month_start t.month (is_leap_year t.year)
      + ((t.day : Int) - 1)) * 86400 + (t.hour : Int) * 3600 + (t.minute : Int) * 60
      + (t.second : Int)) := by
  unfold civil_seconds
  rw [month_days_eq _ _ _ h1 h2, year_days_eq]
  rfl

theorem tmod_bounds (t : Int) (b : Nat) (hb : 0 < b) :
    -(b : Int) < Int.tmod t b ∧ Int.tmod t b < b := by
  constructor
  · cases t with
    | ofNat n =>
      have : 0 ≤ Int.tmod (Int.ofNat n) b := Int.tmod_nonneg _ (Int.ofNat_nonneg n)
      omega
    | negSucc n =>
      have h : Int.tmod (Int.negSucc n) (b : Int) = -(((n + 1) % b : Nat) : Int) := rfl
      rw [h]
      have : (n + 1) % b < b := Nat.mod_lt _ hb
      omega
  · exact Int.tmod_lt_of_pos t (by omega)

theorem floor_split (t : Int) :
    (if Int.tmod t 86400 < 0 then Int.tmod t 86400 + 86400 else Int.tmod t 86400) = t % 86400
    ∧ (if Int.tmod t 86400 < 0 then Int.tdiv t 86400 - 1 else Int.tdiv t 86400) = t / 86400 := by
  have h1 := Int.tmod_add_tdiv t 86400
  have h2 := tmod_bounds t 86400 (by decide)
  simp only [Nat.cast_ofNat] at h2
  split <;> omega

theorem tdiv_nonneg_eq (a : Int) (b : Int) (ha : 0 ≤ a) (hb : 0 ≤ b) :
    Int.tdiv a b = a / b ∧ Int.tmod a b = a % b :=
  ⟨Int.tdiv_eq_ediv ha hb, Int.tmod_eq_emod ha hb⟩

theorem u8_eq (x : Int) (h0 : 0 ≤ x) (h1 : x < 256) : ((u8 x : Nat) : Int) = x := by
  unfold u8; omega

/-- The year loops of the epoch-to-civil conversion, for a day count of an `int32_t` timestamp. -/
theorem year_loops_spec (d : Int) (h0 : -24856 ≤ d) (h1 : d ≤ 24855) :
    ∃ r Y, (if d ≥ 0 then year_loop_fwd (d.natAbs + 1) d 1970
        else year_loop_bwd (d.natAbs + 1) d 1970) = some (r, Y)
      ∧ 1901 ≤ Y ∧ Y ≤ 2038 ∧ 0 ≤ r ∧ r < year_len (u16 Y) ∧ jan1 Y + r = jan1 1970 + d := by
  by_cases hd : d ≥ 0
  · rw [if_pos hd]
    obtain ⟨r, Y, he, h2, h3, h4, h5, h6⟩ :=
      year_loop_fwd_spec (d.natAbs + 1) d 1970 hd (by omega) (by omega) (by omega)
    refine ⟨r, Y, he, by omega, ?_, h4, h5, h6⟩
    unfold jan1 at h6
    omega
  · rw [if_neg hd]
    obtain ⟨r, Y, he, h2, h3, h4, h5, h6⟩ :=
      year_loop_bwd_spec (d.natAbs + 1) d 1970 (by omega) (by omega) (by omega) (by omega)
    refine ⟨r, Y, he, ?_, by omega, h4, h5, h6⟩
    have hl := year_len_pos (u16 Y)
    unfold jan1 at h6
    omega

theorem timestamp_to_human_date_spec (t : Int) (ht : is_int32 t) :
    ∃ c, Mc_Clock_Timestamp_To_Human_Date t = some c ∧ valid_fields c
      ∧ 1901 ≤ c.year ∧ c.year ≤ 2038
      ∧ jan1 c.year - jan1 1970 + month_start c.month (is_leap_year c.year)
          + ((c.day : Int) - 1) = t / 86400
      ∧ (c.hour : Int) * 3600 + (c.minute : Int) * 60 + (c.second : Int) = t % 86400 := by
  unfold is_int32 INT32_MIN INT32_MAX at ht
  obtain ⟨r, Y, he, h2, h3, h4, h5, h6⟩ := year_loops_spec (t / 86400) (by omega) (by omega)
  have hY := u16_cast Y (by omega) (by omega)
  obtain ⟨k, M, hm, m1, m2, m3, m4, m5⟩ :=
    month_loop_spec (u16 Y) 13 1 r (le_refl _) (by omega) (by omega) h4
      (by simp only [month_start]; omega)
  have hb := month_len_bounds M (u16 Y) m1 m2
  have hs : 0 ≤ t % 86400 ∧ t % 86400 < 86400 := by omega
  have e1 := Int.tdiv_eq_ediv hs.1 (by omega : (0 : Int) ≤ 3600)
  have e2 := Int.tmod_eq_emod hs.1 (by omega : (0 : Int) ≤ 3600)
  have hs1 : 0 ≤ t % 86400 % 3600 := by omega
  have e3 := Int.tdiv_eq_ediv hs1 (by omega : (0 : Int) ≤ 60)
  have e4 := Int.tmod_eq_emod hs1 (by omega : (0 : Int) ≤ 60)
  unfold Mc_Clock_Timestamp_To_Human_Date
  simp only [(floor_split t).1, (floor_split t).2, he, hm, e1, e2, e3, e4]
  have f1 := u8_eq (k + 1) (by omega) (by omega)
  have f2 := u8_eq (t % 86400 / 3600) (by omega) (by omega)
  have f3 := u8_eq (t % 86400 % 3600 / 60) (by omega) (by omega)
  have f4 := u8_eq (t % 86400 % 3600 % 60) (by omega) (by omega)
  have hm1 : month_start 1 (is_leap_year (u16 Y)) = 0 := rfl
  rw [hm1] at m5
  refine ⟨_, rfl, ?_, ?_, ?_, ?_, ?_⟩
  · unfold valid_fields
    simp only
    omega
  · simp only; omega
  · simp only; omega
  · simp only [hY]; omega
  · simp only; omega

theorem month_start_mono (L : Bool) (m n : Nat) (h1 : 1 ≤ m) (h2 : m < n) (h3 : n ≤ 13) :
    month_start (m + 1) L ≤ month_start n L := by
  interval_cases n <;> interval_cases m <;> cases L <;> simp [month_start]

theorem month_start_nonneg (L : Bool) (m : Nat) : 0 ≤ month_start m L := by
  unfold month_start
  split <;> (try split) <;> omega

/-- The day of the year of a valid date lies inside the year. -/
theorem day_of_year_bounds (m d y : Nat) (h1 : 1 ≤ m) (h2 : m ≤ 12) (h3 : 1 ≤ d)
    (h4 : d ≤ month_len m y) :
    0 ≤ month_start m (is_leap_year y) + ((d : Int) - 1)
    ∧ month_start m (is_leap_year y) + ((d : Int) - 1) < year_len y := by
  have hs := month_len_step m y h1 h2
  have hn := month_start_nonneg (is_leap_year y) m
  have hm := month_start_mono (is_leap_year y) m 13 h1 (by omega) (le_refl _)
  rw [month_start_13] at hm
  omega

theorem year_unique (y1 y2 : Nat) (r1 r2 : Int) (h1 : 0 ≤ r1) (h2 : r1 < year_len y1)
    (h3 : 0 ≤ r2) (h4 : r2 < year_len y2) (h : jan1 y1 + r1 = jan1 y2 + r2) :
    y1 = y2 ∧ r1 = r2 := by
  rw [year_len_eq_jan1] at h2 h4
  have : y1 = y2 := by
    rcases Nat.lt_trichotomy y1 y2 with hlt | heq | hgt
    · have := jan1_mono ((y1 : Int) + 1) y2 (by omega); omega
    · exact heq
    · have := jan1_mono ((y2 : Int) + 1) y1 (by omega); omega
  subst this
  exact ⟨rfl, by omega⟩

theorem month_unique (L : Bool) (m1 m2 d1 d2 : Nat) (a1 : 1 ≤ m1) (a2 : m1 ≤ 12)
    (b1 : 1 ≤ m2) (b2 : m2 ≤ 12) (c1 : 1 ≤ d1) (c2 : 1 ≤ d2)
    (e1 : month_start m1 L + d1 ≤ month_start (m1 + 1) L)
    (e2 : month_start m2 L + d2 ≤ month_start (m2 + 1) L)
    (h : month_start m1 L + d1 = month_start m2 L + d2) : m1 = m2 ∧ d1 = d2 := by
  have : m1 = m2 := by
    rcases Nat.lt_trichotomy m1 m2 with hlt | heq | hgt
    · have := month_start_mono L m1 m2 a1 hlt (by omega); omega
    · exact heq
    · have := month_start_mono L m2 m1 b1 hgt (by omega); omega
  subst this
  exact ⟨rfl, by omega⟩

theorem civil_unique (a b : clock_datetime_t) (ha : valid_fields a) (hb : valid_fields b)
    (h : civil_seconds a = civil_seconds b) : a = b := by
  obtain ⟨a1, a2, a3, a4, a5, a6, a7⟩ := ha
  obtain ⟨b1, b2, b3, b4, b5, b6, b7⟩ := hb
  rw [civil_seconds_eq a a1 a2, civil_seconds_eq b b1 b2] at h
  have h := Option.some.inj h
  have da := day_of_year_bounds a.month a.day a.year a1 a2 a3 a4
  have db := day_of_year_bounds b.month b.day b.year b1 b2 b3 b4
  have hy := year_unique a.year b.year _ _ da.1 da.2 db.1 db.2 (by omega)
  have sa := month_len_step a.month a.year a1 a2
  have sb := month_len_step b.month b.year b1 b2
  have hyy := hy.1
  rw [hyy] at sa
  have hm := month_unique (is_leap_year b.year) a.month b.month a.day b.day a1 a2 b1 b2 a3 b3
    (by rw [hyy] at a4; omega) (by omega) (by have := hy.2; rw [hyy] at this; omega)
  cases a; cases b
  simp only [clock_datetime_t.mk.injEq] at *
  omega

/-- The day count of the loops equals the closed-form reference. -/
theorem days_from_civil_eq (y m d : Nat) (h1 : 1 ≤ m) (h2 : m ≤ 12) :
    days_from_civil y m d
      = jan1 y - jan1 1970 + month_start m (is_leap_year y) + ((d : Int) - 1) := by
  unfold days_from_civil jan1
  by_cases h : is_leap_year y = true
  · rw [h]
    rw [is_leap_year_iff] at h
    interval_cases m <;> simp [month_start] <;> omega
  · have h' : is_leap_year y = false := by simpa using h
    rw [h']
    rw [is_leap_year_iff] at h
    interval_cases m <;> simp [month_start] <;> omega

/-! ## Conversions -/

/-- For valid month, the value before saturation is the reference second count. -/
theorem civil_seconds_ref (t : clock_datetime_t) (h1 : 1 ≤ t.month) (h2 : t.month ≤ 12) :
    civil_seconds t = some (seconds_from_civil t) := by
  rw [civil_seconds_eq t h1 h2]
  unfold seconds_from_civil
  rw [days_from_civil_eq t.year t.month t.day h1 h2]

theorem saturate_int32 (x : Int) : is_int32 (saturate x) := by
  unfold is_int32 saturate INT32_MIN INT32_MAX
  split
  · omega
  · split <;> omega

theorem saturate_id (x : Int) (h : is_int32 x) : saturate x = x := by
  unfold is_int32 INT32_MIN INT32_MAX at h
  unfold saturate INT32_MIN INT32_MAX
  split
  · omega
  · split <;> omega

theorem wrap32_int32 (x : Int) : is_int32 (wrap32 x) := by
  unfold is_int32 wrap32 INT32_MIN INT32_MAX
  omega

/-- The epoch-to-civil conversion returns valid fields whose second count is the timestamp. -/
theorem timestamp_civil_seconds (t : Int) (ht : is_int32 t) :
    ∃ c, Mc_Clock_Timestamp_To_Human_Date t = some c ∧ valid_fields c
      ∧ 1901 ≤ c.year ∧ c.year ≤ 2038 ∧ civil_seconds c = some t := by
  obtain ⟨c, h1, h2, h3, h4, h5, h6⟩ := timestamp_to_human_date_spec t ht
  refine ⟨c, h1, h2, h3, h4, ?_⟩
  rw [civil_seconds_eq c h2.1 h2.2.1]
  congr 1
  omega

theorem human_date_of_timestamp (t : Int) (ht : is_int32 t) :
    ∃ c, Mc_Clock_Timestamp_To_Human_Date t = some c ∧ valid_fields c
      ∧ 1901 ≤ c.year ∧ c.year ≤ 2038 ∧ Mc_Clock_Human_Date_To_Timestamp c = some t := by
  obtain ⟨c, h1, h2, h3, h4, h5⟩ := timestamp_civil_seconds t ht
  refine ⟨c, h1, h2, h3, h4, ?_⟩
  unfold Mc_Clock_Human_Date_To_Timestamp
  rw [h5, Option.map_some', saturate_id t ht]

/-- A valid civil date-time whose second count fits `int32_t` is recovered from it. -/
theorem timestamp_of_human_date (c : clock_datetime_t) (hv : valid_fields c)
    (hr : is_int32 (seconds_from_civil c)) :
    Mc_Clock_Human_Date_To_Timestamp c = some (seconds_from_civil c)
      ∧ Mc_Clock_Timestamp_To_Human_Date (seconds_from_civil c) = some c := by
  have hc := civil_seconds_ref c hv.1 hv.2.1
  constructor
  · unfold Mc_Clock_Human_Date_To_Timestamp
    rw [hc, Option.map_some', saturate_id _ hr]
  · obtain ⟨c1, h1, h2, _, _, h5⟩ := timestamp_civil_seconds _ hr
    rw [h1]
    congr 1
    exact civil_unique c1 c h2 hv (by rw [h5, hc])

/-! ## Clock operations -/

theorem update_timestamp_spec (dt : clock_datetime_t) (hv : valid_fields dt)
    (hy : dt.year < 65536) :
    ∃ ts, update_timestamp dt = some ⟨ts, dt⟩ ∧ clock_inv ⟨ts, dt⟩ := by
  have hc := civil_seconds_ref dt hv.1 hv.2.1
  have : Mc_Clock_Human_Date_To_Timestamp dt = some (saturate (seconds_from_civil dt)) := by
    unfold Mc_Clock_Human_Date_To_Timestamp
    rw [hc, Option.map_some']
  refine ⟨saturate (seconds_from_civil dt), ?_, hv, hy, this⟩
  unfold update_timestamp
  rw [this, Option.map_some']

theorem update_datetime_spec (ts : Int) (h : is_int32 ts) :
    ∃ dt, update_datetime ts = some ⟨ts, dt⟩ ∧ Mc_Clock_Timestamp_To_Human_Date ts = some dt
      ∧ clock_inv ⟨ts, dt⟩ := by
  obtain ⟨c, h1, h2, h3, h4, h5⟩ := human_date_of_timestamp ts h
  refine ⟨c, ?_, h1, h2, by show c.year < 65536; omega, h5⟩
  unfold update_datetime
  rw [h1, Option.map_some']

theorem clamp_day_update_spec (dt : clock_datetime_t) (h1 : 1 ≤ dt.month) (h2 : dt.month ≤ 12)
    (h3 : 1 ≤ dt.day) (h4 : dt.hour ≤ 23) (h5 : dt.minute ≤ 59) (h6 : dt.second ≤ 59)
    (hy : dt.year < 65536) :
    ∃ ts, clamp_day_update dt
        = some ⟨ts, { dt with day := min dt.day (month_len dt.month dt.year) }⟩
      ∧ clock_inv ⟨ts, { dt with day := min dt.day (month_len dt.month dt.year) }⟩ := by
  have hb := month_len_bounds dt.month dt.year h1 h2
  have hv : valid_fields { dt with day := min dt.day (month_len dt.month dt.year) } := by
    unfold valid_fields
    simp only
    omega
  obtain ⟨ts, e1, e2⟩ := update_timestamp_spec _ hv hy
  refine ⟨ts, ?_, e2⟩
  unfold clamp_day_update
  rw [days_in_month_some dt.month dt.year h1 h2]
  simp only
  rw [← e1]
  congr 1
  by_cases hgt : dt.day > month_len dt.month dt.year
  · rw [if_pos hgt, Nat.min_eq_right (by omega)]
  · rw [if_neg hgt, Nat.min_eq_left (by omega)]

theorem clock_inv_int32 (c : clock_t) (h : clock_inv c) : is_int32 c.timestamp := by
  obtain ⟨_, _, h3⟩ := h
  unfold Mc_Clock_Human_Date_To_Timestamp at h3
  cases hc : civil_seconds c.datetime with
  | none => rw [hc] at h3; simp at h3
  | some x =>
    rw [hc, Option.map_some'] at h3
    have := Option.some.inj h3
    rw [← this]
    exact saturate_int32 x

theorem set_second_spec (c : clock_t) (v : Nat) (hc : clock_inv c) (hv : v ≤ 59) :
    ∃ ts, Mc_Clock_Set_Second c v = some ⟨ts, { c.datetime with second := v }⟩
      ∧ clock_inv ⟨ts, { c.datetime with second := v }⟩ := by
  obtain ⟨h, hy, _⟩ := hc
  unfold Mc_Clock_Set_Second
  rw [if_neg (by omega)]
  exact update_timestamp_spec _ (by unfold valid_fields at h ⊢; simp only; omega) hy

theorem set_minute_spec (c : clock_t) (v : Nat) (hc : clock_inv c) (hv : v ≤ 59) :
    ∃ ts, Mc_Clock_Set_Minute c v = some ⟨ts, { c.datetime with minute := v }⟩
      ∧ clock_inv ⟨ts, { c.datetime with minute := v }⟩ := by
  obtain ⟨h, hy, _⟩ := hc
  unfold Mc_Clock_Set_Minute
  rw [if_neg (by omega)]
  exact update_timestamp_spec _ (by unfold valid_fields at h ⊢; simp only; omega) hy

theorem set_hour_spec (c : clock_t) (v : Nat) (hc : clock_inv c) (hv : v ≤ 23) :
    ∃ ts, Mc_Clock_Set_Hour c v = some ⟨ts, { c.datetime with hour := v }⟩
      ∧ clock_inv ⟨ts, { c.datetime with hour := v }⟩ := by
  obtain ⟨h, hy, _⟩ := hc
  unfold Mc_Clock_Set_Hour
  rw [if_neg (by omega)]
  exact update_timestamp_spec _ (by unfold valid_fields at h ⊢; simp only; omega) hy

theorem set_day_spec (c : clock_t) (v : Nat) (hc : clock_inv c) (h1 : 1 ≤ v)
    (h2 : v ≤ month_len c.datetime.month c.datetime.year) :
    ∃ ts, Mc_Clock_Set_Day c v = some ⟨ts, { c.datetime with day := v }⟩
      ∧ clock_inv ⟨ts, { c.datetime with day := v }⟩ := by
  obtain ⟨h, hy, _⟩ := hc
  have hb := month_len_bounds c.datetime.month c.datetime.year h.1 h.2.1
  unfold Mc_Clock_Set_Day
  have hg : ¬ ((v == 0 || decide (v > 31)) = true) := by
    simp only [Bool.or_eq_true, beq_iff_eq, decide_eq_true_eq]; omega
  rw [if_neg hg, days_in_month_some _ _ h.1 h.2.1]
  simp only
  rw [if_neg (by omega)]
  exact update_timestamp_spec _ (by unfold valid_fields at h ⊢; simp only; omega) hy

theorem set_day_noop (c : clock_t) (v : Nat) (hc : clock_inv c)
    (hv : v = 0 ∨ v > 31 ∨ v > month_len c.datetime.month c.datetime.year) :
    Mc_Clock_Set_Day c v = some c := by
  obtain ⟨h, hy, _⟩ := hc
  unfold Mc_Clock_Set_Day
  by_cases hg : (v == 0 || decide (v > 31)) = true
  · rw [if_pos hg]
  · rw [if_neg hg, days_in_month_some _ _ h.1 h.2.1]
    simp only [Bool.or_eq_true, beq_iff_eq, decide_eq_true_eq] at hg
    simp only
    rw [if_pos (by omega)]

theorem set_month_spec (c : clock_t) (v : Nat) (hc : clock_inv c) (h1 : 1 ≤ v) (h2 : v ≤ 12) :
    ∃ ts, Mc_Clock_Set_Month c v = some ⟨ts, { c.datetime with
        month := v, day := min c.datetime.day (month_len v c.datetime.year) }⟩
      ∧ clock_inv ⟨ts, { c.datetime with
        month := v, day := min c.datetime.day (month_len v c.datetime.year) }⟩ := by
  obtain ⟨h, hy, _⟩ := hc
  unfold Mc_Clock_Set_Month
  have hg : ¬ ((decide (v > 12) || v == 0) = true) := by
    simp only [Bool.or_eq_true, beq_iff_eq, decide_eq_true_eq]; omega
  rw [if_neg hg]
  unfold valid_fields at h
  exact clamp_day_update_spec { c.datetime with month := v } h1 h2 h.2.2.1 (by simp only; omega)
    (by simp only; omega) (by simp only; omega) hy

theorem set_month_noop (c : clock_t) (v : Nat) (hv : v = 0 ∨ v > 12) :
    Mc_Clock_Set_Month c v = some c := by
  unfold Mc_Clock_Set_Month
  have hg : (decide (v > 12) || v == 0) = true := by
    simp only [Bool.or_eq_true, beq_iff_eq, decide_eq_true_eq]; omega
  rw [if_pos hg]

theorem set_year_spec (c : clock_t) (v : Nat) (hc : clock_inv c) (h1 : 1901 ≤ v)
    (h2 : v ≤ 2036) :
    ∃ ts, Mc_Clock_Set_Year c v = some ⟨ts, { c.datetime with
        year := v, day := min c.datetime.day (month_len c.datetime.month v) }⟩
      ∧ clock_inv ⟨ts, { c.datetime with
        year := v, day := min c.datetime.day (month_len c.datetime.month v) }⟩ := by
  obtain ⟨h, hy, _⟩ := hc
  unfold Mc_Clock_Set_Year
  have hg : ¬ ((decide (v > 2036) || decide (v < 1901)) = true) := by
    simp only [Bool.or_eq_true, decide_eq_true_eq]; omega
  rw [if_neg hg]
  unfold valid_fields at h
  exact clamp_day_update_spec { c.datetime with year := v } h.1 h.2.1 h.2.2.1
    (by simp only; omega) (by simp only; omega) (by simp only; omega) (by simp only; omega)

theorem set_year_noop (c : clock_t) (v : Nat) (hv : v < 1901 ∨ v > 2036) :
    Mc_Clock_Set_Year c v = some c := by
  unfold Mc_Clock_Set_Year
  have hg : (decide (v > 2036) || decide (v < 1901)) = true := by
    simp only [Bool.or_eq_true, decide_eq_true_eq]; omega
  rw [if_pos hg]

theorem mc_clock_new_eq : Mc_Clock_New = some ⟨1577836800, ⟨2020, 1, 1, 0, 0, 0⟩⟩ := by
  decide

theorem clone_eq (c : clock_t) : Mc_Clock_Clone c = some c := by
  unfold Mc_Clock_Clone
  rw [mc_clock_new_eq]
  rfl

theorem set_second_inv (c : clock_t) (v : Nat) (hc : clock_inv c) :
    ∃ c1, Mc_Clock_Set_Second c v = some c1 ∧ clock_inv c1 := by
  by_cases hv : v ≤ 59
  · obtain ⟨ts, e1, e2⟩ := set_second_spec c v hc hv
    exact ⟨_, e1, e2⟩
  · exact ⟨c, by unfold Mc_Clock_Set_Second; rw [if_pos (by omega)], hc⟩

theorem set_minute_inv (c : clock_t) (v : Nat) (hc : clock_inv c) :
    ∃ c1, Mc_Clock_Set_Minute c v = some c1 ∧ clock_inv c1 := by
  by_cases hv : v ≤ 59
  · obtain ⟨ts, e1, e2⟩ := set_minute_spec c v hc hv
    exact ⟨_, e1, e2⟩
  · exact ⟨c, by unfold Mc_Clock_Set_Minute; rw [if_pos (by omega)], hc⟩

theorem set_hour_inv (c : clock_t) (v : Nat) (hc : clock_inv c) :
    ∃ c1, Mc_Clock_Set_Hour c v = some c1 ∧ clock_inv c1 := by
  by_cases hv : v ≤ 23
  · obtain ⟨ts, e1, e2⟩ := set_hour_spec c v hc hv
    exact ⟨_, e1, e2⟩
  · exact ⟨c, by unfold Mc_Clock_Set_Hour; rw [if_pos (by omega)], hc⟩

theorem set_day_inv (c : clock_t) (v : Nat) (hc : clock_inv c) :
    ∃ c1, Mc_Clock_Set_Day c v = some c1 ∧ clock_inv c1 := by
  by_cases hv : 1 ≤ v ∧ v ≤ month_len c.datetime.month c.datetime.year
  · obtain ⟨ts, e1, e2⟩ := set_day_spec c v hc hv.1 hv.2
    exact ⟨_, e1, e2⟩
  · exact ⟨c, set_day_noop c v hc (by omega), hc⟩

theorem set_month_inv (c : clock_t) (v : Nat) (hc : clock_inv c) :
    ∃ c1, Mc_Clock_Set_Month c v = some c1 ∧ clock_inv c1 := by
  by_cases hv : 1 ≤ v ∧ v ≤ 12
  · obtain ⟨ts, e1, e2⟩ := set_month_spec c v hc hv.1 hv.2
    exact ⟨_, e1, e2⟩
  · exact ⟨c, set_month_noop c v (by omega), hc⟩

theorem set_year_inv (c : clock_t) (v : Nat) (hc : clock_inv c) :
    ∃ c1, Mc_Clock_Set_Year c v = some c1 ∧ clock_inv c1 := by
  by_cases hv : 1901 ≤ v ∧ v ≤ 2036
  · obtain ⟨ts, e1, e2⟩ := set_year_spec c v hc hv.1 hv.2
    exact ⟨_, e1, e2⟩
  · exact ⟨c, set_year_noop c v (by omega), hc⟩

theorem set_time_inv (c : clock_t) (h m s : Nat) (hc : clock_inv c) :
    ∃ c1, Mc_Clock_Set_Time c h m s = some c1 ∧ clock_inv c1 := by
  obtain ⟨c1, e1, i1⟩ := set_hour_inv c h hc
  obtain ⟨c2, e2, i2⟩ := set_minute_inv c1 m i1
  obtain ⟨c3, e3, i3⟩ := set_second_inv c2 s i2
  refine ⟨c3, ?_, i3⟩
  unfold Mc_Clock_Set_Time
  rw [e1, Option.some_bind, e2, Option.some_bind, e3]

theorem set_date_inv (c : clock_t) (y m d : Nat) (hc : clock_inv c) :
    ∃ c1, Mc_Clock_Set_Date c y m d = some c1 ∧ clock_inv c1 := by
  obtain ⟨c1, e1, i1⟩ := set_year_inv c y hc
  obtain ⟨c2, e2, i2⟩ := set_month_inv c1 m i1
  obtain ⟨c3, e3, i3⟩ := set_day_inv c2 d i2
  refine ⟨c3, ?_, i3⟩
  unfold Mc_Clock_Set_Date
  rw [e1, Option.some_bind, e2, Option.some_bind, e3]

theorem update_timestamp_inv (dt : clock_datetime_t) (hv : valid_fields dt)
    (hy : dt.year < 65536) : ∃ c1, update_timestamp dt = some c1 ∧ clock_inv c1 := by
  obtain ⟨ts, e1, e2⟩ := update_timestamp_spec dt hv hy
  exact ⟨_, e1, e2⟩

theorem update_datetime_inv (ts : Int) (h : is_int32 ts) :
    ∃ c1, update_datetime ts = some c1 ∧ clock_inv c1 := by
  obtain ⟨dt, e1, _, e2⟩ := update_datetime_spec ts h
  exact ⟨_, e1, e2⟩

theorem clamp_day_update_inv (dt : clock_datetime_t) (h1 : 1 ≤ dt.month) (h2 : dt.month ≤ 12)
    (h3 : 1 ≤ dt.day) (h4 : dt.hour ≤ 23) (h5 : dt.minute ≤ 59) (h6 : dt.second ≤ 59)
    (hy : dt.year < 65536) : ∃ c1, clamp_day_update dt = some c1 ∧ clock_inv c1 := by
  obtain ⟨ts, e1, e2⟩ := clamp_day_update_spec dt h1 h2 h3 h4 h5 h6 hy
  exact ⟨_, e1, e2⟩

/-- Every public operation returns on a clock that satisfies the invariant, and
re-establishes the invariant. -/
theorem op_step (op : Op) (c : clock_t) (hc : clock_inv c) (ht : op.well_typed = true) :
    ∃ c1, op.apply c = some c1 ∧ clock_inv c1 := by
  have hi := clock_inv_int32 c hc
  obtain ⟨hv, hy, hts⟩ := id hc
  have hb := month_len_bounds c.datetime.month c.datetime.year hv.1 hv.2.1
  have hdim := days_in_month_some c.datetime.month c.datetime.year hv.1 hv.2.1
  unfold valid_fields at hv
  cases op with
  | clone => exact ⟨c, clone_eq c, hc⟩
  | clear_time =>
    exact update_timestamp_inv _ (by unfold valid_fields; simp only; omega) hy
  | clear_datetime => exact update_datetime_inv DEFAULT_TIMESTAMP (by decide)
  | set_timestamp ts =>
    exact update_datetime_inv ts (by simpa [Op.well_typed, is_int32] using ht)
  | set_second v => exact set_second_inv c v hc
  | set_minute v => exact set_minute_inv c v hc
  | set_hour v => exact set_hour_inv c v hc
  | set_time h m s => exact set_time_inv c h m s hc
  | set_day v => exact set_day_inv c v hc
  | set_month v => exact set_month_inv c v hc
  | set_year v => exact set_year_inv c v hc
  | set_date y m d => exact set_date_inv c y m d hc
  | increment_timestamp => exact update_datetime_inv _ (wrap32_int32 _)
  | increment_timestamp_value v => exact update_datetime_inv _ (wrap32_int32 _)
  | decrement_timestamp => exact update_datetime_inv _ (wrap32_int32 _)
  | decrement_timestamp_value v => exact update_datetime_inv _ (wrap32_int32 _)
  | increment_second =>
    exact update_timestamp_inv _
      (by unfold valid_fields; simp only [beq_iff_eq]; split <;> omega) hy
  | increment_minute =>
    exact update_timestamp_inv _
      (by unfold valid_fields; simp only [beq_iff_eq]; split <;> omega) hy
  | increment_hour =>
    exact update_timestamp_inv _
      (by unfold valid_fields; simp only [beq_iff_eq]; split <;> omega) hy
  | decrement_second =>
    exact update_timestamp_inv _
      (by unfold valid_fields; simp only [beq_iff_eq]; split <;> omega) hy
  | decrement_minute =>
    exact update_timestamp_inv _
      (by unfold valid_fields; simp only [beq_iff_eq]; split <;> omega) hy
  | decrement_hour =>
    exact update_timestamp_inv _
      (by unfold valid_fields; simp only [beq_iff_eq]; split <;> omega) hy
  | increment_day =>
    show ∃ c1, Mc_Clock_Increment_Day c = some c1 ∧ clock_inv c1
    unfold Mc_Clock_Increment_Day
    rw [hdim]
    exact update_timestamp_inv _
      (by unfold valid_fields; simp only [beq_iff_eq]; split <;> omega) hy
  | decrement_day =>
    show ∃ c1, Mc_Clock_Decrement_Day c = some c1 ∧ clock_inv c1
    unfold Mc_Clock_Decrement_Day
    rw [hdim]
    split
    · exact update_timestamp_inv _ (by unfold valid_fields; simp only; omega) hy
    · rename_i hne
      simp only [beq_iff_eq] at hne
      exact update_timestamp_inv _ (by unfold valid_fields; simp only; omega) hy
  | increment_month =>
    exact clamp_day_update_inv _ (by simp only [beq_iff_eq]; split <;> omega)
      (by simp only [beq_iff_eq]; split <;> omega) (by simp only; omega) (by simp only; omega)
      (by simp only; omega) (by simp only; omega) (by simp only; omega)
  | decrement_month =>
    exact clamp_day_update_inv _ (by simp only [beq_iff_eq]; split <;> omega)
      (by simp only [beq_iff_eq]; split <;> omega) (by simp only; omega) (by simp only; omega)
      (by simp only; omega) (by simp only; omega) (by simp only; omega)
  | increment_year =>
    exact clamp_day_update_inv _ (by simp only; omega)
      (by simp only; omega) (by simp only; omega) (by simp only; omega)
      (by simp only; omega) (by simp only; omega) (by simp only; omega)
  | decrement_year =>
    exact clamp_day_update_inv _ (by simp only; omega)
      (by simp only; omega) (by simp only; omega) (by simp only; omega)
      (by simp only; omega) (by simp only; omega) (by simp only [beq_iff_eq]; split <;> omega)

theorem reachable_inv (c : clock_t) (h : Reachable c) : clock_inv c := by
  induction h with
  | new c h =>
    obtain ⟨c1, e1, e2⟩ := update_datetime_inv DEFAULT_TIMESTAMP (by decide)
    unfold Mc_Clock_New at h
    rw [e1] at h
    rw [← Option.some.inj h]
    exact e2
  | step op c c1 _ ht h ih =>
    obtain ⟨c2, e1, e2⟩ := op_step op c ih ht
    rw [e1] at h
    rw [← Option.some.inj h]
    exact e2

theorem reachable_run : ∀ (ops : List Op) (c c1 : clock_t), Reachable c →
    ops.all Op.well_typed = true → run ops c = some c1 → Reachable c1 := by
  intro ops
  induction ops with
  | nil =>
    intro c c1 hc _ h
    simp only [run] at h
    rw [← Option.some.inj h]
    exact hc
  | cons op ops ih =>
    intro c c1 hc ht h
    simp only [List.all_cons, Bool.and_eq_true] at ht
    simp only [run] at h
    cases ha : op.apply c with
    | none => rw [ha] at h; simp at h
    | some c2 =>
      rw [ha, Option.some_bind] at h
      exact ih c2 c1 (Reachable.step op c c2 hc ht.1 ha) ht.2 h

/-! ## Claims -/

/-- C1: round trip from the timestamp side. For every signed 32-bit timestamp `t`,
`Mc_Clock_Timestamp_To_Human_Date(t)` returns civil fields and
`Mc_Clock_Human_Date_To_Timestamp` of them is `t`. -/
theorem C1_round_trip_timestamp (t : Int) (h1 : INT32_MIN ≤ t) (h2 : t ≤ INT32_MAX) :
    (Mc_Clock_Timestamp_To_Human_Date t).bind Mc_Clock_Human_Date_To_Timestamp = some t := by
  obtain ⟨c, e1, _, _, _, e2⟩ := human_date_of_timestamp t ⟨h1, h2⟩
  rw [e1, Option.some_bind, e2]

theorem C1_round_trip_timestamp_witness :
    (INT32_MIN ≤ -2147483648 ∧ (-2147483648 : Int) ≤ INT32_MAX)
    ∧ Mc_Clock_Timestamp_To_Human_Date (-2147483648) = some ⟨1901, 12, 13, 20, 45, 52⟩
    ∧ (Mc_Clock_Timestamp_To_Human_Date (-2147483648)).bind Mc_Clock_Human_Date_To_Timestamp
        = some (-2147483648) :=
  ⟨by decide, by decide, C1_round_trip_timestamp (-2147483648) (by decide) (by decide)⟩

/-- C2, as stated, fails: 1901-01-01 00:00:00 is a valid civil date-time in the
year range 1901..2036, its timestamp saturates to `INT32_MIN`, and converting
that back gives 1901-12-13 20:45:52. -/
theorem C2_round_trip_civil_counterexample :
    valid_fields ⟨1901, 1, 1, 0, 0, 0⟩
    ∧ Mc_Clock_Human_Date_To_Timestamp ⟨1901, 1, 1, 0, 0, 0⟩ = some INT32_MIN
    ∧ (Mc_Clock_Human_Date_To_Timestamp ⟨1901, 1, 1, 0, 0, 0⟩).bind
        Mc_Clock_Timestamp_To_Human_Date = some ⟨1901, 12, 13, 20, 45, 52⟩
    ∧ (Mc_Clock_Human_Date_To_Timestamp ⟨1901, 1, 1, 0, 0, 0⟩).bind
        Mc_Clock_Timestamp_To_Human_Date ≠ some ⟨1901, 1, 1, 0, 0, 0⟩ := by
  decide

/-- C2, amended: round trip from the civil side. For every valid civil date-time
with year in 1901..2036 whose second count since 1970-01-01 00:00:00 is at
least `INT32_MIN` (that is, from 1901-12-13 20:45:52 on),
`Mc_Clock_Timestamp_To_Human_Date(Mc_Clock_Human_Date_To_Timestamp(civil))` is `civil`. -/
theorem C2_round_trip_civil (civil : clock_datetime_t) (hy1 : 1901 ≤ civil.year)
    (hy2 : civil.year ≤ 2036) (hv : valid_fields civil)
    (hmin : INT32_MIN ≤ seconds_from_civil civil) :
    (Mc_Clock_Human_Date_To_Timestamp civil).bind Mc_Clock_Timestamp_To_Human_Date
      = some civil := by
  have hmax : seconds_from_civil civil ≤ INT32_MAX := by
    have hd := day_of_year_bounds civil.month civil.day civil.year hv.1 hv.2.1 hv.2.2.1
      hv.2.2.2.1
    have hl := year_len_eq_jan1 civil.year
    have hm := jan1_mono ((civil.year : Int) + 1) 2037 (by omega)
    have hj : jan1 2037 - jan1 1970 = 24472 := by unfold jan1; omega
    unfold seconds_from_civil
    rw [days_from_civil_eq civil.year civil.month civil.day hv.1 hv.2.1]
    unfold INT32_MAX
    obtain ⟨_, _, _, _, a5, a6, a7⟩ := hv
    omega
  obtain ⟨e1, e2⟩ := timestamp_of_human_date civil hv ⟨hmin, hmax⟩
  rw [e1, Option.some_bind, e2]

theorem C2_round_trip_civil_witness :
    (1901 ≤ 1901 ∧ 1901 ≤ 2036 ∧ valid_fields ⟨1901, 12, 13, 20, 45, 52⟩
      ∧ INT32_MIN ≤ seconds_from_civil ⟨1901, 12, 13, 20, 45, 52⟩)
    ∧ (Mc_Clock_Human_Date_To_Timestamp ⟨1901, 12, 13, 20, 45, 52⟩).bind
        Mc_Clock_Timestamp_To_Human_Date = some ⟨1901, 12, 13, 20, 45, 52⟩ :=
  ⟨by decide, C2_round_trip_civil ⟨1901, 12, 13, 20, 45, 52⟩ (by decide) (by decide)
    (by decide) (by decide)⟩

/-- C3: epoch-to-civil conversion is the proleptic Gregorian UTC calendar. For
every signed 32-bit timestamp `t`, `Mc_Clock_Timestamp_To_Human_Date(t)` returns
valid civil fields whose date has day number `floor(t / 86400)` by the closed-form
`days_from_civil` reference and whose time of day decomposes `t mod 86400`, and
no other valid civil fields have that day number and time of day. -/
theorem C3_timestamp_to_civil_gregorian (t : Int) (h1 : INT32_MIN ≤ t) (h2 : t ≤ INT32_MAX) :
    ∃ c, Mc_Clock_Timestamp_To_Human_Date t = some c
      ∧ valid_fields c
      ∧ days_from_civil c.year c.month c.day = t / 86400
      ∧ (c.hour : Int) * 3600 + (c.minute : Int) * 60 + (c.second : Int) = t % 86400
      ∧ ∀ c1 : clock_datetime_t, valid_fields c1
          → days_from_civil c1.year c1.month c1.day = t / 86400
          → (c1.hour : Int) * 3600 + (c1.minute : Int) * 60 + (c1.second : Int) = t % 86400
          → c1 = c := by
  obtain ⟨c, e1, e2, _, _, e5, e6⟩ := timestamp_to_human_date_spec t ⟨h1, h2⟩
  have e7 := days_from_civil_eq c.year c.month c.day e2.1 e2.2.1
  refine ⟨c, e1, e2, by rw [e7]; exact e5, e6, ?_⟩
  intro c1 v1 d1 s1
  apply civil_unique c1 c v1 e2
  rw [civil_seconds_ref c1 v1.1 v1.2.1, civil_seconds_ref c e2.1 e2.2.1]
  unfold seconds_from_civil
  rw [d1, e7, e5]
  exact congrArg some (by omega)

theorem C3_timestamp_to_civil_gregorian_witness :
    (INT32_MIN ≤ 1762458942 ∧ (1762458942 : Int) ≤ INT32_MAX)
    ∧ Mc_Clock_Timestamp_To_Human_Date 1762458942 = some ⟨2025, 11, 6, 19, 55, 42⟩
    ∧ days_from_civil 2025 11 6 = 1762458942 / 86400
    ∧ ∃ c, Mc_Clock_Timestamp_To_Human_Date 1762458942 = some c
      ∧ valid_fields c
      ∧ days_from_civil c.year c.month c.day = 1762458942 / 86400
      ∧ (c.hour : Int) * 3600 + (c.minute : Int) * 60 + (c.second : Int)
          = 1762458942 % 86400
      ∧ ∀ c1 : clock_datetime_t, valid_fields c1
          → days_from_civil c1.year c1.month c1.day = 1762458942 / 86400
          → (c1.hour : Int) * 3600 + (c1.minute : Int) * 60 + (c1.second : Int)
              = 1762458942 % 86400
          → c1 = c :=
  ⟨by decide, by decide, by decide,
    C3_timestamp_to_civil_gregorian 1762458942 (by decide) (by decide)⟩

/-- C4: clock invariant, timestamp direction. In every clock state reachable from
`Mc_Clock_New()` by public operations (timestamp arithmetic with 32-bit
wraparound), the stored timestamp is `Mc_Clock_Human_Date_To_Timestamp` of the
stored civil fields. -/
theorem C4_timestamp_invariant (c : clock_t) (h : Reachable c) :
    Mc_Clock_Human_Date_To_Timestamp c.datetime = some c.timestamp :=
  (reachable_inv c h).2.2

theorem C4_timestamp_invariant_witness :
    Reachable ⟨-86400, ⟨1969, 12, 31, 0, 0, 0⟩⟩
    ∧ Mc_Clock_Human_Date_To_Timestamp ⟨1969, 12, 31, 0, 0, 0⟩ = some (-86400) :=
  have hr : Reachable ⟨-86400, ⟨1969, 12, 31, 0, 0, 0⟩⟩ :=
    reachable_run [Op.set_timestamp (-1), Op.clear_time] ⟨1577836800, ⟨2020, 1, 1, 0, 0, 0⟩⟩ _
      (Reachable.new _ (by decide)) (by decide) (by decide)
  ⟨hr, C4_timestamp_invariant ⟨-86400, ⟨1969, 12, 31, 0, 0, 0⟩⟩ hr⟩

/-- C5, as stated, fails: `Mc_Clock_New()`, `Set_Date(2036, 2, 1)` and two calls of
`Increment_Year` reach civil fields 2038-02-01 00:00:00 with the timestamp
saturated at `INT32_MAX`, whose civil fields are 2038-01-19 03:14:07; and
`Mc_Clock_New()`, `Set_Year(1901)` reaches 1901-01-01 00:00:00 with the timestamp
saturated at `INT32_MIN`, whose civil fields are 1901-12-13 20:45:52. -/
theorem C5_civil_invariant_counterexample :
    (Reachable ⟨2147483647, ⟨2038, 2, 1, 0, 0, 0⟩⟩
      ∧ Mc_Clock_Timestamp_To_Human_Date 2147483647 = some ⟨2038, 1, 19, 3, 14, 7⟩
      ∧ Mc_Clock_Timestamp_To_Human_Date 2147483647 ≠ some ⟨2038, 2, 1, 0, 0, 0⟩)
    ∧ (Reachable ⟨-2147483648, ⟨1901, 1, 1, 0, 0, 0⟩⟩
      ∧ Mc_Clock_Timestamp_To_Human_Date (-2147483648) = some ⟨1901, 12, 13, 20, 45, 52⟩
      ∧ Mc_Clock_Timestamp_To_Human_Date (-2147483648) ≠ some ⟨1901, 1, 1, 0, 0, 0⟩) :=
  ⟨⟨reachable_run [Op.set_date 2036 2 1, Op.increment_year, Op.increment_year]
      ⟨1577836800, ⟨2020, 1, 1, 0, 0, 0⟩⟩ _ (Reachable.new _ (by decide)) (by decide)
      (by decide), by decide, by decide⟩,
   ⟨reachable_run [Op.set_year 1901]
      ⟨1577836800, ⟨2020, 1, 1, 0, 0, 0⟩⟩ _ (Reachable.new _ (by decide)) (by decide)
      (by decide), by decide, by decide⟩⟩

/-- C5, amended: clock invariant, civil direction. In every clock state reachable
from `Mc_Clock_New()` by public operations whose civil fields denote an instant
inside the `int32_t` range (second count since 1970-01-01 00:00:00 between
`INT32_MIN` and `INT32_MAX`), the stored civil fields are
`Mc_Clock_Timestamp_To_Human_Date` of the stored timestamp. -/
theorem C5_civil_invariant (c : clock_t) (h : Reachable c)
    (hmin : INT32_MIN ≤ seconds_from_civil c.datetime)
    (hmax : seconds_from_civil c.datetime ≤ INT32_MAX) :
    Mc_Clock_Timestamp_To_Human_Date c.timestamp = some c.datetime := by
  obtain ⟨hv, _, hts⟩ := reachable_inv c h
  obtain ⟨e1, e2⟩ := timestamp_of_human_date c.datetime hv ⟨hmin, hmax⟩
  rw [e1] at hts
  rw [← Option.some.inj hts]
  exact e2

theorem C5_civil_invariant_witness :
    (Reachable ⟨2147397248, ⟨2038, 1, 18, 3, 14, 8⟩⟩
      ∧ INT32_MIN ≤ seconds_from_civil ⟨2038, 1, 18, 3, 14, 8⟩
      ∧ seconds_from_civil ⟨2038, 1, 18, 3, 14, 8⟩ ≤ INT32_MAX)
    ∧ Mc_Clock_Timestamp_To_Human_Date 2147397248 = some ⟨2038, 1, 18, 3, 14, 8⟩ :=
  have hr : Reachable ⟨2147397248, ⟨2038, 1, 18, 3, 14, 8⟩⟩ :=
    reachable_run [Op.set_timestamp 2147483647, Op.decrement_day, Op.increment_second]
      ⟨1577836800, ⟨2020, 1, 1, 0, 0, 0⟩⟩ _ (Reachable.new _ (by decide)) (by decide)
      (by decide)
  ⟨⟨hr, by decide, by decide⟩, C5_civil_invariant ⟨2147397248, ⟨2038, 1, 18, 3, 14, 8⟩⟩ hr (by decide) (by decide)⟩

/-- C6: field-validity invariant. In every clock state reachable from
`Mc_Clock_New()` by public operations, `1 ≤ month ≤ 12`,
`1 ≤ day ≤ DaysInMonth(month, year)`, `hour ≤ 23`, `minute ≤ 59` and
`second ≤ 59`; and every public operation called on it returns a clock, which
it does only if each call of `days_in_month` it made had a value, `days_in_month`
having a value exactly for a month in 1..12 (the lookup `dim[month - 1]` in bounds). -/
theorem C6_field_validity (c : clock_t) (h : Reachable c) :
    (1 ≤ c.datetime.month ∧ c.datetime.month ≤ 12 ∧ 1 ≤ c.datetime.day
      ∧ c.datetime.day ≤ month_len c.datetime.month c.datetime.year
      ∧ c.datetime.hour ≤ 23 ∧ c.datetime.minute ≤ 59 ∧ c.datetime.second ≤ 59)
    ∧ (∀ op : Op, op.well_typed = true → ∃ c1, op.apply c = some c1)
    ∧ (∀ month year : Nat, (∃ d, days_in_month month year = some d) ↔ 1 ≤ month ∧ month ≤ 12) := by
  have hi := reachable_inv c h
  refine ⟨hi.1, ?_, ?_⟩
  · intro op ht
    obtain ⟨c1, e1, _⟩ := op_step op c hi ht
    exact ⟨c1, e1⟩
  · intro m y
    constructor
    · rintro ⟨d, hd⟩
      by_contra hc
      rw [days_in_month_none m y (by omega)] at hd
      exact Option.noConfusion hd
    · rintro ⟨h1, h2⟩
      exact ⟨_, days_in_month_some m y h1 h2⟩

theorem C6_field_validity_witness :
    Reachable ⟨951782400, ⟨2000, 2, 29, 0, 0, 0⟩⟩
    ∧ valid_fields ⟨2000, 2, 29, 0, 0, 0⟩
    ∧ Mc_Clock_Increment_Year ⟨951782400, ⟨2000, 2, 29, 0, 0, 0⟩⟩
        = some ⟨983318400, ⟨2001, 2, 28, 0, 0, 0⟩⟩
    ∧ ∃ c1, Op.apply Op.increment_year ⟨951782400, ⟨2000, 2, 29, 0, 0, 0⟩⟩ = some c1 :=
  have hr : Reachable ⟨951782400, ⟨2000, 2, 29, 0, 0, 0⟩⟩ :=
    reachable_run [Op.set_date 2000 2 29] ⟨1577836800, ⟨2020, 1, 1, 0, 0, 0⟩⟩ _
      (Reachable.new _ (by decide)) (by decide) (by decide)
  ⟨hr, (C6_field_validity ⟨951782400, ⟨2000, 2, 29, 0, 0, 0⟩⟩ hr).1, by decide,
    (C6_field_validity ⟨951782400, ⟨2000, 2, 29, 0, 0, 0⟩⟩ hr).2.1 Op.increment_year
      (by decide)⟩

/-- C7: saturation. For every civil date-time with valid month, day, hour, minute
and second and any 16-bit year, the value that `Mc_Clock_Human_Date_To_Timestamp`
computes before the clamp is the exact second count
`days * 86400 + hour * 3600 + minute * 60 + second` (`days` the day number of the
date from 1970-01-01), it fits 64 bits, and the function returns it when it
fits `int32_t`, `INT32_MAX` when it is larger and `INT32_MIN` when it is smaller. -/
theorem C7_saturation (t : clock_datetime_t) (hy : t.year < 65536) (hv : valid_fields t) :
    civil_seconds t = some (seconds_from_civil t)
    ∧ (-9223372036854775808 ≤ seconds_from_civil t
        ∧ seconds_from_civil t ≤ 9223372036854775807)
    ∧ (INT32_MIN ≤ seconds_from_civil t → seconds_from_civil t ≤ INT32_MAX →
        Mc_Clock_Human_Date_To_Timestamp t = some (seconds_from_civil t))
    ∧ (seconds_from_civil t > INT32_MAX →
        Mc_Clock_Human_Date_To_Timestamp t = some INT32_MAX)
    ∧ (seconds_from_civil t < INT32_MIN →
        Mc_Clock_Human_Date_To_Timestamp t = some INT32_MIN) := by
  have hc := civil_seconds_ref t hv.1 hv.2.1
  have hs : Mc_Clock_Human_Date_To_Timestamp t = some (saturate (seconds_from_civil t)) := by
    unfold Mc_Clock_Human_Date_To_Timestamp
    rw [hc, Option.map_some']
  refine ⟨hc, ?_, ?_, ?_, ?_⟩
  · have hd := day_of_year_bounds t.month t.day t.year hv.1 hv.2.1 hv.2.2.1 hv.2.2.2.1
    have hl := year_len_pos t.year
    have h0 := jan1_mono 0 t.year (by omega)
    have h1 := jan1_mono t.year 65536 (by omega)
    have j0 : jan1 0 = -1 := by unfold jan1; omega
    have j1 : jan1 65536 = 23936531 := by unfold jan1; omega
    have j2 : jan1 1970 = 719527 := by unfold jan1; omega
    unfold seconds_from_civil
    rw [days_from_civil_eq t.year t.month t.day hv.1 hv.2.1]
    obtain ⟨_, _, _, _, a5, a6, a7⟩ := hv
    omega
  · intro h1 h2
    rw [hs, saturate_id _ ⟨h1, h2⟩]
  · intro h1
    rw [hs]
    unfold saturate
    rw [if_pos h1]
  · intro h1
    rw [hs]
    unfold saturate
    have : ¬ seconds_from_civil t > INT32_MAX := by
      unfold INT32_MIN at h1; unfold INT32_MAX; omega
    rw [if_neg this, if_pos h1]

theorem C7_saturation_witness :
    (2040 < 65536 ∧ valid_fields ⟨2040, 1, 1, 0, 0, 0⟩
      ∧ seconds_from_civil ⟨2040, 1, 1, 0, 0, 0⟩ > INT32_MAX
      ∧ Mc_Clock_Human_Date_To_Timestamp ⟨2040, 1, 1, 0, 0, 0⟩ = some INT32_MAX)
    ∧ (1900 < 65536 ∧ valid_fields ⟨1900, 1, 1, 0, 0, 0⟩
      ∧ seconds_from_civil ⟨1900, 1, 1, 0, 0, 0⟩ < INT32_MIN
      ∧ Mc_Clock_Human_Date_To_Timestamp ⟨1900, 1, 1, 0, 0, 0⟩ = some INT32_MIN) :=
  ⟨⟨by decide, by decide, by decide,
      (C7_saturation ⟨2040, 1, 1, 0, 0, 0⟩ (by decide) (by decide)).2.2.2.1 (by decide)⟩,
   ⟨by decide, by decide, by decide,
      (C7_saturation ⟨1900, 1, 1, 0, 0, 0⟩ (by decide) (by decide)).2.2.2.2 (by decide)⟩⟩

/-- C8: an out-of-range setter is a silent no-op. For every reachable clock state,
`Set_Second(v)` with `v > 59`, `Set_Minute(v)` with `v > 59`, `Set_Hour(v)` with
`v > 23`, `Set_Day(v)` with `v = 0`, `v > 31` or `v > DaysInMonth(month, year)`,
`Set_Month(v)` with `v = 0` or `v > 12`, and `Set_Year(v)` with `v < 1901` or
`v > 2036` each return with every civil field and the timestamp unchanged. -/
theorem C8_out_of_range_setter_noop (c : clock_t) (h : Reachable c) (v : Nat) :
    (v > 59 → Mc_Clock_Set_Second c v = some c)
    ∧ (v > 59 → Mc_Clock_Set_Minute c v = some c)
    ∧ (v > 23 → Mc_Clock_Set_Hour c v = some c)
    ∧ (v = 0 ∨ v > 31 ∨ v > month_len c.datetime.month c.datetime.year →
        Mc_Clock_Set_Day c v = some c)
    ∧ (v = 0 ∨ v > 12 → Mc_Clock_Set_Month c v = some c)
    ∧ (v < 1901 ∨ v > 2036 → Mc_Clock_Set_Year c v = some c) := by
  refine ⟨?_, ?_, ?_, ?_, ?_, ?_⟩
  · intro hv; unfold Mc_Clock_Set_Second; rw [if_pos hv]
  · intro hv; unfold Mc_Clock_Set_Minute; rw [if_pos hv]
  · intro hv; unfold Mc_Clock_Set_Hour; rw [if_pos hv]
  · exact set_day_noop c v (reachable_inv c h)
  · exact set_month_noop c v
  · exact set_year_noop c v

theorem C8_out_of_range_setter_noop_witness :
    Reachable ⟨1577836800, ⟨2020, 1, 1, 0, 0, 0⟩⟩
    ∧ Mc_Clock_Set_Second ⟨1577836800, ⟨2020, 1, 1, 0, 0, 0⟩⟩ 70
        = some ⟨1577836800, ⟨2020, 1, 1, 0, 0, 0⟩⟩ :=
  have hr : Reachable ⟨1577836800, ⟨2020, 1, 1, 0, 0, 0⟩⟩ := Reachable.new _ (by decide)
  ⟨hr, (C8_out_of_range_setter_noop ⟨1577836800, ⟨2020, 1, 1, 0, 0, 0⟩⟩ hr 70).1 (by decide)⟩

/-- C9: in-range single-field setter. For every reachable clock state and every
in-range value `v`, `Set_Second`, `Set_Minute`, `Set_Hour`, `Set_Day`, `Set_Month`
and `Set_Year` store `v` in their field and leave every other civil field
untouched, except that `Set_Month` and `Set_Year` set the day to
`min(old day, DaysInMonth(new month, new year))`; afterwards the timestamp is
`Mc_Clock_Human_Date_To_Timestamp` of the new civil fields. -/
theorem C9_in_range_setter (c : clock_t) (h : Reachable c) (v : Nat) :
    (v ≤ 59 → ∃ c1, Mc_Clock_Set_Second c v = some c1
        ∧ c1.datetime = { c.datetime with second := v }
        ∧ Mc_Clock_Get_Second c1 = v
        ∧ Mc_Clock_Human_Date_To_Timestamp c1.datetime = some c1.timestamp)
    ∧ (v ≤ 59 → ∃ c1, Mc_Clock_Set_Minute c v = some c1
        ∧ c1.datetime = { c.datetime with minute := v }
        ∧ Mc_Clock_Get_Minute c1 = v
        ∧ Mc_Clock_Human_Date_To_Timestamp c1.datetime = some c1.timestamp)
    ∧ (v ≤ 23 → ∃ c1, Mc_Clock_Set_Hour c v = some c1
        ∧ c1.datetime = { c.datetime with hour := v }
        ∧ Mc_Clock_Get_Hour c1 = v
        ∧ Mc_Clock_Human_Date_To_Timestamp c1.datetime = some c1.timestamp)
    ∧ (1 ≤ v → v ≤ month_len c.datetime.month c.datetime.year →
        ∃ c1, Mc_Clock_Set_Day c v = some c1
        ∧ c1.datetime = { c.datetime with day := v }
        ∧ Mc_Clock_Get_Day c1 = v
        ∧ Mc_Clock_Human_Date_To_Timestamp c1.datetime = some c1.timestamp)
    ∧ (1 ≤ v → v ≤ 12 → ∃ c1, Mc_Clock_Set_Month c v = some c1
        ∧ c1.datetime = { c.datetime with
            month := v, day := min c.datetime.day (month_len v c.datetime.year) }
        ∧ Mc_Clock_Get_Month c1 = v
        ∧ Mc_Clock_Human_Date_To_Timestamp c1.datetime = some c1.timestamp)
    ∧ (1901 ≤ v → v ≤ 2036 → ∃ c1, Mc_Clock_Set_Year c v = some c1
        ∧ c1.datetime = { c.datetime with
            year := v, day := min c.datetime.day (month_len c.datetime.month v) }
        ∧ Mc_Clock_Get_Year c1 = v
        ∧ Mc_Clock_Human_Date_To_Timestamp c1.datetime = some c1.timestamp) := by
  have hi := reachable_inv c h
  refine ⟨?_, ?_, ?_, ?_, ?_, ?_⟩
  · intro hv
    obtain ⟨ts, e1, e2⟩ := set_second_spec c v hi hv
    exact ⟨_, e1, rfl, rfl, e2.2.2⟩
  · intro hv
    obtain ⟨ts, e1, e2⟩ := set_minute_spec c v hi hv
    exact ⟨_, e1, rfl, rfl, e2.2.2⟩
  · intro hv
    obtain ⟨ts, e1, e2⟩ := set_hour_spec c v hi hv
    exact ⟨_, e1, rfl, rfl, e2.2.2⟩
  · intro h1 h2
    obtain ⟨ts, e1, e2⟩ := set_day_spec c v hi h1 h2
    exact ⟨_, e1, rfl, rfl, e2.2.2⟩
  · intro h1 h2
    obtain ⟨ts, e1, e2⟩ := set_month_spec c v hi h1 h2
    exact ⟨_, e1, rfl, rfl, e2.2.2⟩
  · intro h1 h2
    obtain ⟨ts, e1, e2⟩ := set_year_spec c v hi h1 h2
    exact ⟨_, e1, rfl, rfl, e2.2.2⟩

theorem C9_in_range_setter_witness :
    Reachable ⟨1580428800, ⟨2020, 1, 31, 0, 0, 0⟩⟩
    ∧ Mc_Clock_Set_Month ⟨1580428800, ⟨2020, 1, 31, 0, 0, 0⟩⟩ 2
        = some ⟨1582934400, ⟨2020, 2, 29, 0, 0, 0⟩⟩
    ∧ ∃ c1, Mc_Clock_Set_Month ⟨1580428800, ⟨2020, 1, 31, 0, 0, 0⟩⟩ 2 = some c1
        ∧ c1.datetime = ⟨2020, 2, min 31 (month_len 2 2020), 0, 0, 0⟩
        ∧ Mc_Clock_Get_Month c1 = 2
        ∧ Mc_Clock_Human_Date_To_Timestamp c1.datetime = some c1.timestamp :=
  have hr : Reachable ⟨1580428800, ⟨2020, 1, 31, 0, 0, 0⟩⟩ :=
    reachable_run [Op.set_day 31] ⟨1577836800, ⟨2020, 1, 1, 0, 0, 0⟩⟩ _
      (Reachable.new _ (by decide)) (by decide) (by decide)
  ⟨hr, by decide,
    (C9_in_range_setter ⟨1580428800, ⟨2020, 1, 31, 0, 0, 0⟩⟩ hr 2).2.2.2.2.1
      (by decide) (by decide)⟩

/-- C10: `Set_Date` with a valid date always lands on that date. For every
reachable clock state and every `(y, m, d)` with `1901 ≤ y ≤ 2036`, `1 ≤ m ≤ 12`
and `1 ≤ d ≤ DaysInMonth(m, y)`, after `Mc_Clock_Set_Date(clock, y, m, d)` the
getters return year `y`, month `m` and day `d`, the hour, minute and second are
unchanged, and the timestamp is `Mc_Clock_Human_Date_To_Timestamp` of the
resulting civil fields. -/
theorem C10_set_date_valid (c : clock_t) (h : Reachable c) (y m d : Nat)
    (hy1 : 1901 ≤ y) (hy2 : y ≤ 2036) (hm1 : 1 ≤ m) (hm2 : m ≤ 12)
    (hd1 : 1 ≤ d) (hd2 : d ≤ month_len m y) :
    ∃ c1, Mc_Clock_Set_Date c y m d = some c1
      ∧ Mc_Clock_Get_Year c1 = y ∧ Mc_Clock_Get_Month c1 = m ∧ Mc_Clock_Get_Day c1 = d
      ∧ Mc_Clock_Get_Hour c1 = Mc_Clock_Get_Hour c
      ∧ Mc_Clock_Get_Minute c1 = Mc_Clock_Get_Minute c
      ∧ Mc_Clock_Get_Second c1 = Mc_Clock_Get_Second c
      ∧ Mc_Clock_Human_Date_To_Timestamp c1.datetime = some c1.timestamp := by
  have hi := reachable_inv c h
  obtain ⟨t1, e1, i1⟩ := set_year_spec c y hi hy1 hy2
  obtain ⟨t2, e2, i2⟩ := set_month_spec _ m i1 hm1 hm2
  obtain ⟨t3, e3, i3⟩ := set_day_spec _ d i2 hd1 hd2
  refine ⟨⟨t3, ⟨y, m, d, c.datetime.hour, c.datetime.minute, c.datetime.second⟩⟩, ?_,
    rfl, rfl, rfl, rfl, rfl, rfl, i3.2.2⟩
  unfold Mc_Clock_Set_Date
  rw [e1, Option.some_bind, e2, Option.some_bind, e3]

theorem C10_set_date_valid_witness :
    (Reachable ⟨1582934400, ⟨2020, 2, 29, 0, 0, 0⟩⟩
      ∧ 1901 ≤ 2021 ∧ 2021 ≤ 2036 ∧ 1 ≤ 3 ∧ 3 ≤ 12 ∧ 1 ≤ 31 ∧ 31 ≤ month_len 3 2021)
    ∧ Mc_Clock_Set_Date ⟨1582934400, ⟨2020, 2, 29, 0, 0, 0⟩⟩ 2021 3 31
        = some ⟨1617148800, ⟨2021, 3, 31, 0, 0, 0⟩⟩
    ∧ ∃ c1, Mc_Clock_Set_Date ⟨1582934400, ⟨2020, 2, 29, 0, 0, 0⟩⟩ 2021 3 31 = some c1
      ∧ Mc_Clock_Get_Year c1 = 2021 ∧ Mc_Clock_Get_Month c1 = 3 ∧ Mc_Clock_Get_Day c1 = 31
      ∧ Mc_Clock_Get_Hour c1 = Mc_Clock_Get_Hour ⟨1582934400, ⟨2020, 2, 29, 0, 0, 0⟩⟩
      ∧ Mc_Clock_Get_Minute c1 = Mc_Clock_Get_Minute ⟨1582934400, ⟨2020, 2, 29, 0, 0, 0⟩⟩
      ∧ Mc_Clock_Get_Second c1 = Mc_Clock_Get_Second ⟨1582934400, ⟨2020, 2, 29, 0, 0, 0⟩⟩
      ∧ Mc_Clock_Human_Date_To_Timestamp c1.datetime = some c1.timestamp :=
  have hr : Reachable ⟨1582934400, ⟨2020, 2, 29, 0, 0, 0⟩⟩ :=
    reachable_run [Op.set_date 2020 2 29] ⟨1577836800, ⟨2020, 1, 1, 0, 0, 0⟩⟩ _
      (Reachable.new _ (by decide)) (by decide) (by decide)
  ⟨⟨hr, by decide⟩, by decide,
    C10_set_date_valid ⟨1582934400, ⟨2020, 2, 29, 0, 0, 0⟩⟩ hr 2021 3 31 (by decide)
      (by decide) (by decide) (by decide) (by decide) (by decide)⟩

/-! ## Field rotations -/

theorem human_date_to_timestamp_eq (t : clock_datetime_t) (hv : valid_fields t) :
    Mc_Clock_Human_Date_To_Timestamp t = some (saturate (seconds_from_civil t)) := by
  unfold Mc_Clock_Human_Date_To_Timestamp
  rw [civil_seconds_ref t hv.1 hv.2.1, Option.map_some']

theorem increment_second_spec (c : clock_t) (hc : clock_inv c) :
    ∃ ts, Mc_Clock_Increment_Second c
        = some ⟨ts, { c.datetime with second := (c.datetime.second + 1) % 60 }⟩
      ∧ clock_inv ⟨ts, { c.datetime with second := (c.datetime.second + 1) % 60 }⟩ := by
  obtain ⟨h, hy, _⟩ := hc
  unfold valid_fields at h
  have e : (if (c.datetime.second == 59) = true then 0 else (c.datetime.second + 1) % 256)
      = (c.datetime.second + 1) % 60 := by
    simp only [beq_iff_eq]; split <;> omega
  unfold Mc_Clock_Increment_Second
  rw [e]
  exact update_timestamp_spec _ (by unfold valid_fields; simp only; omega) hy

theorem increment_minute_spec (c : clock_t) (hc : clock_inv c) :
    ∃ ts, Mc_Clock_Increment_Minute c
        = some ⟨ts, { c.datetime with minute := (c.datetime.minute + 1) % 60 }⟩
      ∧ clock_inv ⟨ts, { c.datetime with minute := (c.datetime.minute + 1) % 60 }⟩ := by
  obtain ⟨h, hy, _⟩ := hc
  unfold valid_fields at h
  have e : (if (c.datetime.minute == 59) = true then 0 else (c.datetime.minute + 1) % 256)
      = (c.datetime.minute + 1) % 60 := by
    simp only [beq_iff_eq]; split <;> omega
  unfold Mc_Clock_Increment_Minute
  rw [e]
  exact update_timestamp_spec _ (by unfold valid_fields; simp only; omega) hy

theorem increment_hour_spec (c : clock_t) (hc : clock_inv c) :
    ∃ ts, Mc_Clock_Increment_Hour c
        = some ⟨ts, { c.datetime with hour := (c.datetime.hour + 1) % 24 }⟩
      ∧ clock_inv ⟨ts, { c.datetime with hour := (c.datetime.hour + 1) % 24 }⟩ := by
  obtain ⟨h, hy, _⟩ := hc
  unfold valid_fields at h
  have e : (if (c.datetime.hour == 23) = true then 0 else (c.datetime.hour + 1) % 256)
      = (c.datetime.hour + 1) % 24 := by
    simp only [beq_iff_eq]; split <;> omega
  unfold Mc_Clock_Increment_Hour
  rw [e]
  exact update_timestamp_spec _ (by unfold valid_fields; simp only; omega) hy

theorem decrement_second_spec (c : clock_t) (hc : clock_inv c) :
    ∃ ts, Mc_Clock_Decrement_Second c
        = some ⟨ts, { c.datetime with second := (c.datetime.second + 59) % 60 }⟩
      ∧ clock_inv ⟨ts, { c.datetime with second := (c.datetime.second + 59) % 60 }⟩ := by
  obtain ⟨h, hy, _⟩ := hc
  unfold valid_fields at h
  have e : (if (c.datetime.second == 0) = true then 59 else (c.datetime.second + 255) % 256)
      = (c.datetime.second + 59) % 60 := by
    simp only [beq_iff_eq]; split <;> omega
  unfold Mc_Clock_Decrement_Second
  rw [e]
  exact update_timestamp_spec _ (by unfold valid_fields; simp only; omega) hy

theorem decrement_minute_spec (c : clock_t) (hc : clock_inv c) :
    ∃ ts, Mc_Clock_Decrement_Minute c
        = some ⟨ts, { c.datetime with minute := (c.datetime.minute + 59) % 60 }⟩
      ∧ clock_inv ⟨ts, { c.datetime with minute := (c.datetime.minute + 59) % 60 }⟩ := by
  obtain ⟨h, hy, _⟩ := hc
  unfold valid_fields at h
  have e : (if (c.datetime.minute == 0) = true then 59 else (c.datetime.minute + 255) % 256)
      = (c.datetime.minute + 59) % 60 := by
    simp only [beq_iff_eq]; split <;> omega
  unfold Mc_Clock_Decrement_Minute
  rw [e]
  exact update_timestamp_spec _ (by unfold valid_fields; simp only; omega) hy

theorem decrement_hour_spec (c : clock_t) (hc : clock_inv c) :
    ∃ ts, Mc_Clock_Decrement_Hour c
        = some ⟨ts, { c.datetime with hour := (c.datetime.hour + 23) % 24 }⟩
      ∧ clock_inv ⟨ts, { c.datetime with hour := (c.datetime.hour + 23) % 24 }⟩ := by
  obtain ⟨h, hy, _⟩ := hc
  unfold valid_fields at h
  have e : (if (c.datetime.hour == 0) = true then 23 else (c.datetime.hour + 255) % 256)
      = (c.datetime.hour + 23) % 24 := by
    simp only [beq_iff_eq]; split <;> omega
  unfold Mc_Clock_Decrement_Hour
  rw [e]
  exact update_timestamp_spec _ (by unfold valid_fields; simp only; omega) hy

theorem increment_day_spec (c : clock_t) (hc : clock_inv c) :
    ∃ ts, Mc_Clock_Increment_Day c
        = some ⟨ts, { c.datetime with day :=
            if c.datetime.day = month_len c.datetime.month c.datetime.year then 1
            else c.datetime.day + 1 }⟩
      ∧ clock_inv ⟨ts, { c.datetime with day :=
            if c.datetime.day = month_len c.datetime.month c.datetime.year then 1
            else c.datetime.day + 1 }⟩ := by
  obtain ⟨h, hy, _⟩ := hc
  have hb := month_len_bounds c.datetime.month c.datetime.year h.1 h.2.1
  unfold valid_fields at h
  have e : (if (c.datetime.day == month_len c.datetime.month c.datetime.year) = true then 1
        else (c.datetime.day + 1) % 256)
      = (if c.datetime.day = month_len c.datetime.month c.datetime.year then 1
        else c.datetime.day + 1) := by
    simp only [beq_iff_eq]; split <;> omega
  unfold Mc_Clock_Increment_Day
  rw [days_in_month_some _ _ h.1 h.2.1]
  simp only
  rw [e]
  exact update_timestamp_spec _ (by unfold valid_fields; simp only; split <;> omega) hy

theorem decrement_day_spec (c : clock_t) (hc : clock_inv c) :
    ∃ ts, Mc_Clock_Decrement_Day c
        = some ⟨ts, { c.datetime with day :=
            if c.datetime.day = 1 then month_len c.datetime.month c.datetime.year
            else c.datetime.day - 1 }⟩
      ∧ clock_inv ⟨ts, { c.datetime with day :=
            if c.datetime.day = 1 then month_len c.datetime.month c.datetime.year
            else c.datetime.day - 1 }⟩ := by
  obtain ⟨h, hy, _⟩ := hc
  have hb := month_len_bounds c.datetime.month c.datetime.year h.1 h.2.1
  unfold valid_fields at h
  unfold Mc_Clock_Decrement_Day
  rw [days_in_month_some _ _ h.1 h.2.1]
  simp only [beq_iff_eq]
  by_cases h1 : c.datetime.day = 1
  · rw [if_pos h1, if_pos h1]
    exact update_timestamp_spec _ (by unfold valid_fields; simp only; omega) hy
  · rw [if_neg h1, if_neg h1]
    have e : (c.datetime.day + 255) % 256 = c.datetime.day - 1 := by omega
    rw [e]
    exact update_timestamp_spec _ (by unfold valid_fields; simp only; omega) hy

theorem clear_time_spec (c : clock_t) (hc : clock_inv c) :
    ∃ ts, Mc_Clock_Clear_Time c
        = some ⟨ts, { c.datetime with hour := 0, minute := 0, second := 0 }⟩
      ∧ clock_inv ⟨ts, { c.datetime with hour := 0, minute := 0, second := 0 }⟩ := by
  obtain ⟨h, hy, _⟩ := hc
  unfold valid_fields at h
  unfold Mc_Clock_Clear_Time
  exact update_timestamp_spec _ (by unfold valid_fields; simp only; omega) hy

theorem increment_month_spec (c : clock_t) (hc : clock_inv c) :
    ∃ ts, Mc_Clock_Increment_Month c
        = some ⟨ts, { c.datetime with
            month := if c.datetime.month = 12 then 1 else c.datetime.month + 1,
            day := min c.datetime.day
              (month_len (if c.datetime.month = 12 then 1 else c.datetime.month + 1)
                c.datetime.year) }⟩
      ∧ clock_inv ⟨ts, { c.datetime with
            month := if c.datetime.month = 12 then 1 else c.datetime.month + 1,
            day := min c.datetime.day
              (month_len (if c.datetime.month = 12 then 1 else c.datetime.month + 1)
                c.datetime.year) }⟩ := by
  obtain ⟨h, hy, _⟩ := hc
  unfold valid_fields at h
  have e : (if (c.datetime.month == 12) = true then 1 else (c.datetime.month + 1) % 256)
      = (if c.datetime.month = 12 then 1 else c.datetime.month + 1) := by
    simp only [beq_iff_eq]; split <;> omega
  unfold Mc_Clock_Increment_Month
  rw [e]
  exact clamp_day_update_spec
    { c.datetime with month := if c.datetime.month = 12 then 1 else c.datetime.month + 1 }
    (by simp only; split <;> omega) (by simp only; split <;> omega) h.2.2.1
    (by simp only; omega) (by simp only; omega) (by simp only; omega) hy

theorem decrement_month_spec (c : clock_t) (hc : clock_inv c) :
    ∃ ts, Mc_Clock_Decrement_Month c
        = some ⟨ts, { c.datetime with
            month := if c.datetime.month = 1 then 12 else c.datetime.month - 1,
            day := min c.datetime.day
              (month_len (if c.datetime.month = 1 then 12 else c.datetime.month - 1)
                c.datetime.year) }⟩
      ∧ clock_inv ⟨ts, { c.datetime with
            month := if c.datetime.month = 1 then 12 else c.datetime.month - 1,
            day := min c.datetime.day
              (month_len (if c.datetime.month = 1 then 12 else c.datetime.month - 1)
                c.datetime.year) }⟩ := by
  obtain ⟨h, hy, _⟩ := hc
  unfold valid_fields at h
  have e : (if (c.datetime.month == 1) = true then 12 else (c.datetime.month + 255) % 256)
      = (if c.datetime.month = 1 then 12 else c.datetime.month - 1) := by
    simp only [beq_iff_eq]; split <;> omega
  unfold Mc_Clock_Decrement_Month
  rw [e]
  exact clamp_day_update_spec
    { c.datetime with month := if c.datetime.month = 1 then 12 else c.datetime.month - 1 }
    (by simp only; split <;> omega) (by simp only; split <;> omega) h.2.2.1
    (by simp only; omega) (by simp only; omega) (by simp only; omega) hy

theorem increment_year_spec (c : clock_t) (hc : clock_inv c) :
    ∃ ts, Mc_Clock_Increment_Year c
        = some ⟨ts, { c.datetime with
            year := (c.datetime.year + 1) % 65536,
            day := min c.datetime.day
              (month_len c.datetime.month ((c.datetime.year + 1) % 65536)) }⟩
      ∧ clock_inv ⟨ts, { c.datetime with
            year := (c.datetime.year + 1) % 65536,
            day := min c.datetime.day
              (month_len c.datetime.month ((c.datetime.year + 1) % 65536)) }⟩ := by
  obtain ⟨h, hy, _⟩ := hc
  unfold valid_fields at h
  unfold Mc_Clock_Increment_Year
  exact clamp_day_update_spec { c.datetime with year := (c.datetime.year + 1) % 65536 }
    h.1 h.2.1 h.2.2.1 (by simp only; omega) (by simp only; omega) (by simp only; omega)
    (by simp only; omega)

theorem decrement_year_spec (c : clock_t) (hc : clock_inv c) :
    ∃ ts, Mc_Clock_Decrement_Year c
        = some ⟨ts, { c.datetime with
            year := if c.datetime.year = 1970 then 1970
              else (c.datetime.year + 65535) % 65536,
            day := min c.datetime.day
              (month_len c.datetime.month (if c.datetime.year = 1970 then 1970
                else (c.datetime.year + 65535) % 65536)) }⟩
      ∧ clock_inv ⟨ts, { c.datetime with
            year := if c.datetime.year = 1970 then 1970
              else (c.datetime.year + 65535) % 65536,
            day := min c.datetime.day
              (month_len c.datetime.month (if c.datetime.year = 1970 then 1970
                else (c.datetime.year + 65535) % 65536)) }⟩ := by
  obtain ⟨h, hy, _⟩ := hc
  unfold valid_fields at h
  have e : (if (c.datetime.year == 1970) = true then 1970
        else (c.datetime.year + 65535) % 65536)
      = (if c.datetime.year = 1970 then 1970 else (c.datetime.year + 65535) % 65536) := by
    simp only [beq_iff_eq]
  unfold Mc_Clock_Decrement_Year
  rw [e]
  exact clamp_day_update_spec
    { c.datetime with year := if c.datetime.year = 1970 then 1970
        else (c.datetime.year + 65535) % 65536 }
    h.1 h.2.1 h.2.2.1 (by simp only; omega) (by simp only; omega) (by simp only; omega)
    (by simp only; split <;> omega)

/-- Repeated `Increment_Year` from the default state reaches every later year
of the `uint16_t` range, on 1 January 00:00:00. -/
theorem reachable_later_year : ∀ n : Nat, 2020 + n ≤ 65535 →
    ∃ ts, Reachable ⟨ts, ⟨2020 + n, 1, 1, 0, 0, 0⟩⟩ := by
  intro n
  induction n with
  | zero => intro _; exact ⟨1577836800, Reachable.new _ mc_clock_new_eq⟩
  | succ k ih =>
    intro hk
    obtain ⟨ts, hr⟩ := ih (by omega)
    obtain ⟨ts1, e1, _⟩ := increment_year_spec _ (reachable_inv _ hr)
    have hb := month_len_bounds 1 ((2020 + k + 1) % 65536) (le_refl _) (by omega)
    refine ⟨ts1, ?_⟩
    have hs := Reachable.step Op.increment_year _ _ hr rfl e1
    have e2 : (2020 + k + 1) % 65536 = 2020 + (k + 1) := by omega
    simp only [e2] at hs hb
    have e3 : min 1 (month_len 1 (2020 + (k + 1))) = 1 := by omega
    rw [e3] at hs
    exact hs

/-! ## Claims on the leap-year rule, the default state and the field operations -/

/-- C11: leap-year rule. For every year `y`, `is_leap_year(y)` is true exactly
when `y` is divisible by 4 and not by 100, or divisible by 400; `is_leap_year`
is true at 2020 and 2000 and false at 1900 and 2021. -/
theorem C11_leap_year_rule :
    (∀ y : Nat, is_leap_year y = true ↔ (4 ∣ y ∧ ¬ 100 ∣ y) ∨ 400 ∣ y)
    ∧ is_leap_year 2020 = true ∧ is_leap_year 2000 = true
    ∧ is_leap_year 1900 = false ∧ is_leap_year 2021 = false := by
  refine ⟨?_, by decide, by decide, by decide, by decide⟩
  intro y
  rw [is_leap_year_iff]
  simp only [Nat.dvd_iff_mod_eq_zero, ne_eq]

/-- C12: default state. `Mc_Clock_New()` yields timestamp 1577836800 and civil
fields 2020-01-01 00:00:00, and `Mc_Clock_Clear_DateTime` applied to any clock
state yields exactly that state. -/
theorem C12_default_state :
    Mc_Clock_New = some ⟨1577836800, ⟨2020, 1, 1, 0, 0, 0⟩⟩
    ∧ ∀ c : clock_t, Mc_Clock_Clear_DateTime c = some ⟨1577836800, ⟨2020, 1, 1, 0, 0, 0⟩⟩ :=
  ⟨mc_clock_new_eq, fun _ => mc_clock_new_eq⟩

/-- C13: `Clear_Time`. For every reachable clock state, after
`Mc_Clock_Clear_Time` the hour, minute and second are 0, the year, month and
day are unchanged, and the timestamp is `Mc_Clock_Human_Date_To_Timestamp` of
that date at 00:00:00. -/
theorem C13_clear_time (c : clock_t) (h : Reachable c) :
    ∃ c1, Mc_Clock_Clear_Time c = some c1
      ∧ Mc_Clock_Get_Hour c1 = 0 ∧ Mc_Clock_Get_Minute c1 = 0 ∧ Mc_Clock_Get_Second c1 = 0
      ∧ Mc_Clock_Get_Year c1 = Mc_Clock_Get_Year c
      ∧ Mc_Clock_Get_Month c1 = Mc_Clock_Get_Month c
      ∧ Mc_Clock_Get_Day c1 = Mc_Clock_Get_Day c
      ∧ Mc_Clock_Human_Date_To_Timestamp
          ⟨c.datetime.year, c.datetime.month, c.datetime.day, 0, 0, 0⟩ = some c1.timestamp := by
  obtain ⟨ts, e1, e2⟩ := clear_time_spec c (reachable_inv c h)
  exact ⟨⟨ts, ⟨c.datetime.year, c.datetime.month, c.datetime.day, 0, 0, 0⟩⟩, e1,
    rfl, rfl, rfl, rfl, rfl, rfl, e2.2.2⟩

theorem C13_clear_time_witness :
    Reachable ⟨1762458942, ⟨2025, 11, 6, 19, 55, 42⟩⟩
    ∧ Mc_Clock_Clear_Time ⟨1762458942, ⟨2025, 11, 6, 19, 55, 42⟩⟩
        = some ⟨1762387200, ⟨2025, 11, 6, 0, 0, 0⟩⟩
    ∧ ∃ c1, Mc_Clock_Clear_Time ⟨1762458942, ⟨2025, 11, 6, 19, 55, 42⟩⟩ = some c1
      ∧ Mc_Clock_Get_Hour c1 = 0 ∧ Mc_Clock_Get_Minute c1 = 0 ∧ Mc_Clock_Get_Second c1 = 0
      ∧ Mc_Clock_Get_Year c1 = Mc_Clock_Get_Year ⟨1762458942, ⟨2025, 11, 6, 19, 55, 42⟩⟩
      ∧ Mc_Clock_Get_Month c1 = Mc_Clock_Get_Month ⟨1762458942, ⟨2025, 11, 6, 19, 55, 42⟩⟩
      ∧ Mc_Clock_Get_Day c1 = Mc_Clock_Get_Day ⟨1762458942, ⟨2025, 11, 6, 19, 55, 42⟩⟩
      ∧ Mc_Clock_Human_Date_To_Timestamp ⟨2025, 11, 6, 0, 0, 0⟩ = some c1.timestamp :=
  have hr : Reachable ⟨1762458942, ⟨2025, 11, 6, 19, 55, 42⟩⟩ :=
    reachable_run [Op.set_timestamp 1762458942] ⟨1577836800, ⟨2020, 1, 1, 0, 0, 0⟩⟩ _
      (Reachable.new _ (by decide)) (by decide) (by decide)
  ⟨hr, by decide, C13_clear_time ⟨1762458942, ⟨2025, 11, 6, 19, 55, 42⟩⟩ hr⟩

/-- C14: timestamp delta operations use 32-bit wraparound without saturation.
For every clock state with timestamp `t` and every value `v`,
`Increment_Timestamp_Value(v)` stores the `int32_t` value congruent to `t + v`
modulo `2^32` and `Decrement_Timestamp_Value(v)` the one congruent to `t - v`,
`Increment_Timestamp` and `Decrement_Timestamp` are the cases `v = 1`, and each
time the civil fields afterwards are `Mc_Clock_Timestamp_To_Human_Date` of the
new timestamp; `Increment_Timestamp` at `INT32_MAX` gives `INT32_MIN`. -/
theorem C14_timestamp_delta_wraparound :
    (∀ (c : clock_t) (v : Int),
      (∃ c1, Mc_Clock_Increment_Timestamp_Value c v = some c1
        ∧ INT32_MIN ≤ c1.timestamp ∧ c1.timestamp ≤ INT32_MAX
        ∧ (c1.timestamp - (c.timestamp + v)) % 4294967296 = 0
        ∧ Mc_Clock_Timestamp_To_Human_Date c1.timestamp = some c1.datetime)
      ∧ (∃ c1, Mc_Clock_Decrement_Timestamp_Value c v = some c1
        ∧ INT32_MIN ≤ c1.timestamp ∧ c1.timestamp ≤ INT32_MAX
        ∧ (c1.timestamp - (c.timestamp - v)) % 4294967296 = 0
        ∧ Mc_Clock_Timestamp_To_Human_Date c1.timestamp = some c1.datetime)
      ∧ Mc_Clock_Increment_Timestamp c = Mc_Clock_Increment_Timestamp_Value c 1
      ∧ Mc_Clock_Decrement_Timestamp c = Mc_Clock_Decrement_Timestamp_Value c 1)
    ∧ Mc_Clock_Increment_Timestamp ⟨2147483647, ⟨2038, 1, 19, 3, 14, 7⟩⟩
        = some ⟨-2147483648, ⟨1901, 12, 13, 20, 45, 52⟩⟩
    ∧ Mc_Clock_Decrement_Timestamp ⟨-2147483648, ⟨1901, 12, 13, 20, 45, 52⟩⟩
        = some ⟨2147483647, ⟨2038, 1, 19, 3, 14, 7⟩⟩ := by
  refine ⟨?_, by decide, by decide⟩
  intro c v
  refine ⟨?_, ?_, rfl, rfl⟩
  · have hw := wrap32_int32 (c.timestamp + v)
    obtain ⟨dt, e1, e2, _⟩ := update_datetime_spec _ hw
    refine ⟨_, e1, hw.1, hw.2, ?_, e2⟩
    show (wrap32 (c.timestamp + v) - (c.timestamp + v)) % 4294967296 = 0
    unfold wrap32; omega
  · have hw := wrap32_int32 (c.timestamp - v)
    obtain ⟨dt, e1, e2, _⟩ := update_datetime_spec _ hw
    refine ⟨_, e1, hw.1, hw.2, ?_, e2⟩
    show (wrap32 (c.timestamp - v) - (c.timestamp - v)) % 4294967296 = 0
    unfold wrap32; omega

/-- C15: field rotation without carry for second, minute and hour. For every
reachable clock state, `Increment_Second/Minute/Hour` maps the field `x` to
`(x + 1) mod N` and `Decrement_Second/Minute/Hour` maps it to `(x - 1) mod N`
(`N` = 60, 60, 24), and no other civil field changes. -/
theorem C15_rotation_no_carry (c : clock_t) (h : Reachable c) :
    (∃ c1, Mc_Clock_Increment_Second c = some c1
      ∧ c1.datetime.second = (c.datetime.second + 1) % 60
      ∧ { c1.datetime with second := c.datetime.second } = c.datetime)
    ∧ (∃ c1, Mc_Clock_Increment_Minute c = some c1
      ∧ c1.datetime.minute = (c.datetime.minute + 1) % 60
      ∧ { c1.datetime with minute := c.datetime.minute } = c.datetime)
    ∧ (∃ c1, Mc_Clock_Increment_Hour c = some c1
      ∧ c1.datetime.hour = (c.datetime.hour + 1) % 24
      ∧ { c1.datetime with hour := c.datetime.hour } = c.datetime)
    ∧ (∃ c1, Mc_Clock_Decrement_Second c = some c1
      ∧ (c1.datetime.second : Int) = ((c.datetime.second : Int) - 1) % 60
      ∧ { c1.datetime with second := c.datetime.second } = c.datetime)
    ∧ (∃ c1, Mc_Clock_Decrement_Minute c = some c1
      ∧ (c1.datetime.minute : Int) = ((c.datetime.minute : Int) - 1) % 60
      ∧ { c1.datetime with minute := c.datetime.minute } = c.datetime)
    ∧ (∃ c1, Mc_Clock_Decrement_Hour c = some c1
      ∧ (c1.datetime.hour : Int) = ((c.datetime.hour : Int) - 1) % 24
      ∧ { c1.datetime with hour := c.datetime.hour } = c.datetime) := by
  have hi := reachable_inv c h
  refine ⟨?_, ?_, ?_, ?_, ?_, ?_⟩
  · obtain ⟨ts, e1, _⟩ := increment_second_spec c hi
    exact ⟨_, e1, rfl, rfl⟩
  · obtain ⟨ts, e1, _⟩ := increment_minute_spec c hi
    exact ⟨_, e1, rfl, rfl⟩
  · obtain ⟨ts, e1, _⟩ := increment_hour_spec c hi
    exact ⟨_, e1, rfl, rfl⟩
  · obtain ⟨ts, e1, _⟩ := decrement_second_spec c hi
    refine ⟨_, e1, ?_, rfl⟩
    show (((c.datetime.second + 59) % 60 : Nat) : Int) = ((c.datetime.second : Int) - 1) % 60
    omega
  · obtain ⟨ts, e1, _⟩ := decrement_minute_spec c hi
    refine ⟨_, e1, ?_, rfl⟩
    show (((c.datetime.minute + 59) % 60 : Nat) : Int) = ((c.datetime.minute : Int) - 1) % 60
    omega
  · obtain ⟨ts, e1, _⟩ := decrement_hour_spec c hi
    refine ⟨_, e1, ?_, rfl⟩
    show (((c.datetime.hour + 23) % 24 : Nat) : Int) = ((c.datetime.hour : Int) - 1) % 24
    omega

theorem C15_rotation_no_carry_witness :
    Reachable ⟨1762559999, ⟨2025, 11, 7, 23, 59, 59⟩⟩
    ∧ Mc_Clock_Increment_Hour ⟨1762559999, ⟨2025, 11, 7, 23, 59, 59⟩⟩
        = some ⟨1762477199, ⟨2025, 11, 7, 0, 59, 59⟩⟩
    ∧ Mc_Clock_Increment_Second ⟨1762559999, ⟨2025, 11, 7, 23, 59, 59⟩⟩
        = some ⟨1762559940, ⟨2025, 11, 7, 23, 59, 0⟩⟩
    ∧ ∃ c1, Mc_Clock_Increment_Hour ⟨1762559999, ⟨2025, 11, 7, 23, 59, 59⟩⟩ = some c1
      ∧ c1.datetime.hour = (23 + 1) % 24
      ∧ { c1.datetime with hour := 23 } = ⟨2025, 11, 7, 23, 59, 59⟩ :=
  have hr : Reachable ⟨1762559999, ⟨2025, 11, 7, 23, 59, 59⟩⟩ :=
    reachable_run [Op.set_timestamp 1762559999] ⟨1577836800, ⟨2020, 1, 1, 0, 0, 0⟩⟩ _
      (Reachable.new _ (by decide)) (by decide) (by decide)
  ⟨hr, by decide, by decide,
    (C15_rotation_no_carry ⟨1762559999, ⟨2025, 11, 7, 23, 59, 59⟩⟩ hr).2.2.1⟩

/-- C16: day wrap within the current month. For every reachable clock state with
`L = DaysInMonth(month, year)`, `Increment_Day` sets the day to 1 if it was `L`
and to `day + 1` otherwise, `Decrement_Day` sets it to `L` if it was 1 and to
`day - 1` otherwise, and neither changes month, year, hour, minute or second. -/
theorem C16_day_wrap (c : clock_t) (h : Reachable c) :
    (∃ c1, Mc_Clock_Increment_Day c = some c1
      ∧ c1.datetime = { c.datetime with
          day := (if c.datetime.day = month_len c.datetime.month c.datetime.year then 1
            else c.datetime.day + 1) })
    ∧ (∃ c1, Mc_Clock_Decrement_Day c = some c1
      ∧ c1.datetime = { c.datetime with
          day := (if c.datetime.day = 1 then month_len c.datetime.month c.datetime.year
            else c.datetime.day - 1) }) := by
  have hi := reachable_inv c h
  obtain ⟨t1, e1, _⟩ := increment_day_spec c hi
  obtain ⟨t2, e2, _⟩ := decrement_day_spec c hi
  exact ⟨⟨_, e1, rfl⟩, ⟨_, e2, rfl⟩⟩

theorem C16_day_wrap_witness :
    Reachable ⟨1614556800, ⟨2021, 3, 1, 0, 0, 0⟩⟩
    ∧ Mc_Clock_Decrement_Day ⟨1614556800, ⟨2021, 3, 1, 0, 0, 0⟩⟩
        = some ⟨1617148800, ⟨2021, 3, 31, 0, 0, 0⟩⟩
    ∧ ∃ c1, Mc_Clock_Decrement_Day ⟨1614556800, ⟨2021, 3, 1, 0, 0, 0⟩⟩ = some c1
      ∧ c1.datetime = ⟨2021, 3, if 1 = 1 then month_len 3 2021 else 1 - 1, 0, 0, 0⟩ :=
  have hr : Reachable ⟨1614556800, ⟨2021, 3, 1, 0, 0, 0⟩⟩ :=
    reachable_run [Op.set_date 2021 3 1] ⟨1577836800, ⟨2020, 1, 1, 0, 0, 0⟩⟩ _
      (Reachable.new _ (by decide)) (by decide) (by decide)
  ⟨hr, by decide, (C16_day_wrap ⟨1614556800, ⟨2021, 3, 1, 0, 0, 0⟩⟩ hr).2⟩

/-- C17: month wrap with day clamp. For every reachable clock state,
`Increment_Month` sets the month to 1 if it was 12 and to `month + 1` otherwise,
`Decrement_Month` sets it to 12 if it was 1 and to `month - 1` otherwise; both
times the year and the time fields are unchanged and the day becomes
`min(old day, DaysInMonth(new month, year))`. -/
theorem C17_month_wrap (c : clock_t) (h : Reachable c) :
    (∃ c1, Mc_Clock_Increment_Month c = some c1
      ∧ c1.datetime = { c.datetime with
          month := if c.datetime.month = 12 then 1 else c.datetime.month + 1,
          day := min c.datetime.day
            (month_len (if c.datetime.month = 12 then 1 else c.datetime.month + 1)
              c.datetime.year) })
    ∧ (∃ c1, Mc_Clock_Decrement_Month c = some c1
      ∧ c1.datetime = { c.datetime with
          month := if c.datetime.month = 1 then 12 else c.datetime.month - 1,
          day := min c.datetime.day
            (month_len (if c.datetime.month = 1 then 12 else c.datetime.month - 1)
              c.datetime.year) }) := by
  have hi := reachable_inv c h
  obtain ⟨t1, e1, _⟩ := increment_month_spec c hi
  obtain ⟨t2, e2, _⟩ := decrement_month_spec c hi
  exact ⟨⟨_, e1, rfl⟩, ⟨_, e2, rfl⟩⟩

theorem C17_month_wrap_witness :
    (Reachable ⟨1611964800, ⟨2021, 1, 30, 0, 0, 0⟩⟩
      ∧ Mc_Clock_Increment_Month ⟨1611964800, ⟨2021, 1, 30, 0, 0, 0⟩⟩
          = some ⟨1614470400, ⟨2021, 2, 28, 0, 0, 0⟩⟩
      ∧ ∃ c1, Mc_Clock_Increment_Month ⟨1611964800, ⟨2021, 1, 30, 0, 0, 0⟩⟩ = some c1
        ∧ c1.datetime = ⟨2021, if 1 = 12 then 1 else 1 + 1,
            min 30 (month_len (if 1 = 12 then 1 else 1 + 1) 2021), 0, 0, 0⟩)
    ∧ (Reachable ⟨1585526400, ⟨2020, 3, 30, 0, 0, 0⟩⟩
      ∧ Mc_Clock_Decrement_Month ⟨1585526400, ⟨2020, 3, 30, 0, 0, 0⟩⟩
          = some ⟨1582934400, ⟨2020, 2, 29, 0, 0, 0⟩⟩
      ∧ ∃ c1, Mc_Clock_Decrement_Month ⟨1585526400, ⟨2020, 3, 30, 0, 0, 0⟩⟩ = some c1
        ∧ c1.datetime = ⟨2020, if 3 = 1 then 12 else 3 - 1,
            min 30 (month_len (if 3 = 1 then 12 else 3 - 1) 2020), 0, 0, 0⟩) :=
  have hr1 : Reachable ⟨1611964800, ⟨2021, 1, 30, 0, 0, 0⟩⟩ :=
    reachable_run [Op.set_date 2021 1 30] ⟨1577836800, ⟨2020, 1, 1, 0, 0, 0⟩⟩ _
      (Reachable.new _ (by decide)) (by decide) (by decide)
  have hr2 : Reachable ⟨1585526400, ⟨2020, 3, 30, 0, 0, 0⟩⟩ :=
    reachable_run [Op.set_date 2020 3 30] ⟨1577836800, ⟨2020, 1, 1, 0, 0, 0⟩⟩ _
      (Reachable.new _ (by decide)) (by decide) (by decide)
  ⟨⟨hr1, by decide, (C17_month_wrap ⟨1611964800, ⟨2021, 1, 30, 0, 0, 0⟩⟩ hr1).1⟩,
   ⟨hr2, by decide, (C17_month_wrap ⟨1585526400, ⟨2020, 3, 30, 0, 0, 0⟩⟩ hr2).2⟩⟩

/-- The timestamp of a clock that satisfies the invariant is the saturated
second count of its civil fields. -/
theorem clock_inv_timestamp (ts : Int) (dt : clock_datetime_t) (h : clock_inv ⟨ts, dt⟩) :
    ts = saturate (seconds_from_civil dt) := by
  have h1 := h.2.2
  rw [human_date_to_timestamp_eq dt h.1] at h1
  exact (Option.some.inj h1).symm

/-- The clock at 65535-01-01 00:00:00, reached by repeated `Increment_Year`. -/
theorem reachable_year_65535 : Reachable ⟨2147483647, ⟨65535, 1, 1, 0, 0, 0⟩⟩ := by
  obtain ⟨ts, hr⟩ := reachable_later_year 63515 (by decide)
  have e : ts = 2147483647 := by
    rw [clock_inv_timestamp ts _ (reachable_inv _ hr)]
    decide
  rw [e] at hr
  exact hr

theorem increment_year_65535 :
    Mc_Clock_Increment_Year ⟨2147483647, ⟨65535, 1, 1, 0, 0, 0⟩⟩
      = some ⟨-2147483648, ⟨0, 1, 1, 0, 0, 0⟩⟩ := by
  obtain ⟨ts, e1, e2⟩ := increment_year_spec _ (reachable_inv _ reachable_year_65535)
  have e : ts = -2147483648 := by
    rw [clock_inv_timestamp ts _ e2]
    decide
  rw [e1, e]
  decide

theorem reachable_year_0 : Reachable ⟨-2147483648, ⟨0, 1, 1, 0, 0, 0⟩⟩ :=
  Reachable.step Op.increment_year _ _ reachable_year_65535 rfl increment_year_65535

theorem decrement_year_0 :
    Mc_Clock_Decrement_Year ⟨-2147483648, ⟨0, 1, 1, 0, 0, 0⟩⟩
      = some ⟨2147483647, ⟨65535, 1, 1, 0, 0, 0⟩⟩ := by
  obtain ⟨ts, e1, e2⟩ := decrement_year_spec _ (reachable_inv _ reachable_year_0)
  have e : ts = 2147483647 := by
    rw [clock_inv_timestamp ts _ e2]
    decide
  rw [e1, e]
  decide

/-- C18, as stated, fails at the ends of the `uint16_t` year: the clock at
65535-01-01 00:00:00 is reachable (repeated `Increment_Year`), `Increment_Year`
takes it to year 0, not 65536, and `Decrement_Year` takes the clock at year 0
to year 65535. -/
theorem C18_year_step_counterexample :
    Reachable ⟨2147483647, ⟨65535, 1, 1, 0, 0, 0⟩⟩
    ∧ Mc_Clock_Increment_Year ⟨2147483647, ⟨65535, 1, 1, 0, 0, 0⟩⟩
        = some ⟨-2147483648, ⟨0, 1, 1, 0, 0, 0⟩⟩
    ∧ Reachable ⟨-2147483648, ⟨0, 1, 1, 0, 0, 0⟩⟩
    ∧ Mc_Clock_Decrement_Year ⟨-2147483648, ⟨0, 1, 1, 0, 0, 0⟩⟩
        = some ⟨2147483647, ⟨65535, 1, 1, 0, 0, 0⟩⟩ :=
  ⟨reachable_year_65535, increment_year_65535, reachable_year_0, decrement_year_0⟩

/-- C18, amended: year increment and decrement with leap-day clamp. For every
reachable clock state, `Increment_Year` adds exactly 1 to the year with no upper
range check, except that year 65535 wraps to 0; `Decrement_Year` from a year
other than 1970 subtracts exactly 1, except that year 0 wraps to 65535; both
times month and the time fields are unchanged and the day becomes
`min(old day, DaysInMonth(month, new year))`. -/
theorem C18_year_step (c : clock_t) (h : Reachable c) :
    (∃ c1, Mc_Clock_Increment_Year c = some c1
      ∧ c1.datetime = { c.datetime with
          year := (if c.datetime.year = 65535 then 0 else c.datetime.year + 1),
          day := min c.datetime.day (month_len c.datetime.month
            (if c.datetime.year = 65535 then 0 else c.datetime.year + 1)) })
    ∧ (c.datetime.year ≠ 1970 → ∃ c1, Mc_Clock_Decrement_Year c = some c1
      ∧ c1.datetime = { c.datetime with
          year := (if c.datetime.year = 0 then 65535 else c.datetime.year - 1),
          day := min c.datetime.day (month_len c.datetime.month
            (if c.datetime.year = 0 then 65535 else c.datetime.year - 1)) }) := by
  have hi := reachable_inv c h
  have hy := hi.2.1
  constructor
  · obtain ⟨ts, e1, _⟩ := increment_year_spec c hi
    have e : (c.datetime.year + 1) % 65536
        = (if c.datetime.year = 65535 then 0 else c.datetime.year + 1) := by
      split <;> omega
    rw [e] at e1
    exact ⟨_, e1, rfl⟩
  · intro hne
    obtain ⟨ts, e1, _⟩ := decrement_year_spec c hi
    have e : (if c.datetime.year = 1970 then 1970 else (c.datetime.year + 65535) % 65536)
        = (if c.datetime.year = 0 then 65535 else c.datetime.year - 1) := by
      rw [if_neg hne]; split <;> omega
    rw [e] at e1
    exact ⟨_, e1, rfl⟩

theorem C18_year_step_witness :
    (Reachable ⟨1582934400, ⟨2020, 2, 29, 0, 0, 0⟩⟩
      ∧ Mc_Clock_Decrement_Year ⟨1582934400, ⟨2020, 2, 29, 0, 0, 0⟩⟩
          = some ⟨1551312000, ⟨2019, 2, 28, 0, 0, 0⟩⟩
      ∧ Mc_Clock_Increment_Year ⟨1582934400, ⟨2020, 2, 29, 0, 0, 0⟩⟩
          = some ⟨1614470400, ⟨2021, 2, 28, 0, 0, 0⟩⟩
      ∧ 2020 ≠ 1970
      ∧ ∃ c1, Mc_Clock_Decrement_Year ⟨1582934400, ⟨2020, 2, 29, 0, 0, 0⟩⟩ = some c1
        ∧ c1.datetime = ⟨if 2020 = 0 then 65535 else 2020 - 1, 2,
            min 29 (month_len 2 (if 2020 = 0 then 65535 else 2020 - 1)), 0, 0, 0⟩)
    ∧ (Reachable ⟨2082758400, ⟨2036, 1, 1, 0, 0, 0⟩⟩
      ∧ Mc_Clock_Increment_Year ⟨2082758400, ⟨2036, 1, 1, 0, 0, 0⟩⟩
          = some ⟨2114380800, ⟨2037, 1, 1, 0, 0, 0⟩⟩
      ∧ ∃ c1, Mc_Clock_Increment_Year ⟨2082758400, ⟨2036, 1, 1, 0, 0, 0⟩⟩ = some c1
        ∧ c1.datetime = ⟨if 2036 = 65535 then 0 else 2036 + 1, 1,
            min 1 (month_len 1 (if 2036 = 65535 then 0 else 2036 + 1)), 0, 0, 0⟩) :=
  have hr1 : Reachable ⟨1582934400, ⟨2020, 2, 29, 0, 0, 0⟩⟩ :=
    reachable_run [Op.set_date 2020 2 29] ⟨1577836800, ⟨2020, 1, 1, 0, 0, 0⟩⟩ _
      (Reachable.new _ (by decide)) (by decide) (by decide)
  have hr2 : Reachable ⟨2082758400, ⟨2036, 1, 1, 0, 0, 0⟩⟩ :=
    reachable_run [Op.set_year 2036] ⟨1577836800, ⟨2020, 1, 1, 0, 0, 0⟩⟩ _
      (Reachable.new _ (by decide)) (by decide) (by decide)
  ⟨⟨hr1, by decide, by decide, by decide,
      (C18_year_step ⟨1582934400, ⟨2020, 2, 29, 0, 0, 0⟩⟩ hr1).2 (by decide)⟩,
   ⟨hr2, by decide, (C18_year_step ⟨2082758400, ⟨2036, 1, 1, 0, 0, 0⟩⟩ hr2).1⟩⟩

/-- C19: decrementing the year at 1970 is a no-op. For every reachable clock state
whose year is 1970, `Mc_Clock_Decrement_Year` leaves the year at 1970 and every
other civil field and the timestamp unchanged. -/
theorem C19_decrement_year_1970_noop (c : clock_t) (h : Reachable c)
    (hy : c.datetime.year = 1970) :
    Mc_Clock_Decrement_Year c = some c := by
  have hi := reachable_inv c h
  obtain ⟨ts, e1, e2⟩ := decrement_year_spec c hi
  have hd : min c.datetime.day (month_len c.datetime.month 1970) = c.datetime.day := by
    have := hi.1.2.2.2.1
    rw [hy] at this
    omega
  rw [if_pos hy, hd] at e1 e2
  have hdt : ({ c.datetime with year := 1970, day := c.datetime.day } : clock_datetime_t)
      = c.datetime := by
    rw [← hy]
  rw [hdt] at e1 e2
  have hts : ts = c.timestamp := by
    have h1 := e2.2.2
    rw [hi.2.2] at h1
    exact (Option.some.inj h1).symm
  rw [e1, hts]

theorem C19_decrement_year_1970_noop_witness :
    (Reachable ⟨5011200, ⟨1970, 2, 28, 0, 0, 0⟩⟩ ∧ (1970 : Nat) = 1970)
    ∧ Mc_Clock_Decrement_Year ⟨5011200, ⟨1970, 2, 28, 0, 0, 0⟩⟩
        = some ⟨5011200, ⟨1970, 2, 28, 0, 0, 0⟩⟩ :=
  have hr : Reachable ⟨5011200, ⟨1970, 2, 28, 0, 0, 0⟩⟩ :=
    reachable_run [Op.set_date 1972 2 29, Op.decrement_year, Op.decrement_year]
      ⟨1577836800, ⟨2020, 1, 1, 0, 0, 0⟩⟩ _
      (Reachable.new _ (by decide)) (by decide) (by decide)
  ⟨⟨hr, rfl⟩, C19_decrement_year_1970_noop ⟨5011200, ⟨1970, 2, 28, 0, 0, 0⟩⟩ hr rfl⟩

/-- C20, evaluated where it fails: the clock at 1969-01-01 00:00:00 is reachable
(`Mc_Clock_New()`, `Set_Year(1969)`), and `Mc_Clock_Decrement_Year` takes it to
year 1968, below 1970; the guard of `Mc_Clock_Decrement_Year` holds the year
only when it is exactly 1970. -/
theorem C20_decrement_year_below_1970 :
    Reachable ⟨-31536000, ⟨1969, 1, 1, 0, 0, 0⟩⟩
    ∧ Mc_Clock_Decrement_Year ⟨-31536000, ⟨1969, 1, 1, 0, 0, 0⟩⟩
        = some ⟨-63158400, ⟨1968, 1, 1, 0, 0, 0⟩⟩
    ∧ Mc_Clock_Get_Year ⟨-63158400, ⟨1968, 1, 1, 0, 0, 0⟩⟩ < 1970 :=
  ⟨reachable_run [Op.set_year 1969] ⟨1577836800, ⟨2020, 1, 1, 0, 0, 0⟩⟩ _
      (Reachable.new _ (by decide)) (by decide) (by decide),
    by decide, by decide⟩

/-! ## Claims on the time of day and on inverse rotations -/

/-- A clock that satisfies the invariant and has the civil fields of another
such clock is that clock. -/
theorem clock_inv_ext (c : clock_t) (hc : clock_inv c) (ts : Int) (dt : clock_datetime_t)
    (h : clock_inv ⟨ts, dt⟩) (hdt : dt = c.datetime) : (⟨ts, dt⟩ : clock_t) = c := by
  subst hdt
  have h1 := h.2.2
  have h2 := hc.2.2
  simp only at h1
  rw [h2] at h1
  have h3 : c.timestamp = ts := Option.some.inj h1
  subst h3
  rfl

/-- C21: time of day uses floor division, also for negative timestamps. For every
signed 32-bit timestamp `t`, `Mc_Clock_Timestamp_To_Human_Date(t)` returns civil
fields with `hour ≤ 23`, `minute ≤ 59`, `second ≤ 59` and
`hour * 3600 + minute * 60 + second` equal to `t mod 86400` taken in
`[0, 86400)`, the floor modulus (`t - 86400 * floor(t / 86400)`). -/
theorem C21_time_of_day_floor (t : Int) (h1 : INT32_MIN ≤ t) (h2 : t ≤ INT32_MAX) :
    ∃ c, Mc_Clock_Timestamp_To_Human_Date t = some c
      ∧ c.hour ≤ 23 ∧ c.minute ≤ 59 ∧ c.second ≤ 59
      ∧ (c.hour : Int) * 3600 + (c.minute : Int) * 60 + (c.second : Int) = t % 86400
      ∧ 0 ≤ t % 86400 ∧ t % 86400 < 86400
      ∧ t % 86400 = t - 86400 * Int.floor ((t : ℚ) / 86400) := by
  obtain ⟨c, e1, e2, _, _, _, e6⟩ := timestamp_to_human_date_spec t ⟨h1, h2⟩
  refine ⟨c, e1, e2.2.2.2.2.1, e2.2.2.2.2.2.1, e2.2.2.2.2.2.2, e6, by omega, by omega, ?_⟩
  have hf : Int.floor ((t : ℚ) / 86400) = t / 86400 := by
    have := Rat.floor_intCast_div_natCast t 86400
    simpa using this
  rw [hf]
  omega

theorem C21_time_of_day_floor_witness :
    (INT32_MIN ≤ -1 ∧ (-1 : Int) ≤ INT32_MAX)
    ∧ Mc_Clock_Timestamp_To_Human_Date (-1) = some ⟨1969, 12, 31, 23, 59, 59⟩
    ∧ Int.tmod (-1) 86400 = -1
    ∧ (-1 : Int) % 86400 = 86399
    ∧ ∃ c, Mc_Clock_Timestamp_To_Human_Date (-1) = some c
      ∧ c.hour ≤ 23 ∧ c.minute ≤ 59 ∧ c.second ≤ 59
      ∧ (c.hour : Int) * 3600 + (c.minute : Int) * 60 + (c.second : Int) = (-1) % 86400
      ∧ 0 ≤ (-1 : Int) % 86400 ∧ (-1 : Int) % 86400 < 86400
      ∧ (-1 : Int) % 86400 = -1 - 86400 * Int.floor (((-1 : Int) : ℚ) / 86400) :=
  ⟨by decide, by decide, by decide, by decide,
    C21_time_of_day_floor (-1) (by decide) (by decide)⟩

/-- C22: increment and decrement of a rotating field are mutually inverse. For
every reachable clock state and each field `X` of second, minute, hour and day,
`Decrement_X` after `Increment_X`, and `Increment_X` after `Decrement_X`, return
the original state, all six civil fields and the timestamp. -/
theorem C22_rotation_inverse (c : clock_t) (h : Reachable c) :
    (Mc_Clock_Increment_Second c).bind Mc_Clock_Decrement_Second = some c
    ∧ (Mc_Clock_Decrement_Second c).bind Mc_Clock_Increment_Second = some c
    ∧ (Mc_Clock_Increment_Minute c).bind Mc_Clock_Decrement_Minute = some c
    ∧ (Mc_Clock_Decrement_Minute c).bind Mc_Clock_Increment_Minute = some c
    ∧ (Mc_Clock_Increment_Hour c).bind Mc_Clock_Decrement_Hour = some c
    ∧ (Mc_Clock_Decrement_Hour c).bind Mc_Clock_Increment_Hour = some c
    ∧ (Mc_Clock_Increment_Day c).bind Mc_Clock_Decrement_Day = some c
    ∧ (Mc_Clock_Decrement_Day c).bind Mc_Clock_Increment_Day = some c := by
  have hi := reachable_inv c h
  have hv := hi.1
  have hb := month_len_bounds c.datetime.month c.datetime.year hv.1 hv.2.1
  unfold valid_fields at hv
  obtain ⟨ts, dt⟩ := c
  obtain ⟨y, mo, d, hh, mi, s⟩ := dt
  simp only at hv hb
  refine ⟨?_, ?_, ?_, ?_, ?_, ?_, ?_, ?_⟩
  · obtain ⟨t1, e1, i1⟩ := increment_second_spec _ hi
    obtain ⟨t2, e2, i2⟩ := decrement_second_spec _ i1
    rw [e1, Option.some_bind, e2]
    exact congrArg some (clock_inv_ext _ hi t2 _ i2
      (by simp only [clock_datetime_t.mk.injEq, true_and, and_true]; omega))
  · obtain ⟨t1, e1, i1⟩ := decrement_second_spec _ hi
    obtain ⟨t2, e2, i2⟩ := increment_second_spec _ i1
    rw [e1, Option.some_bind, e2]
    exact congrArg some (clock_inv_ext _ hi t2 _ i2
      (by simp only [clock_datetime_t.mk.injEq, true_and, and_true]; omega))
  · obtain ⟨t1, e1, i1⟩ := increment_minute_spec _ hi
    obtain ⟨t2, e2, i2⟩ := decrement_minute_spec _ i1
    rw [e1, Option.some_bind, e2]
    exact congrArg some (clock_inv_ext _ hi t2 _ i2
      (by simp only [clock_datetime_t.mk.injEq, true_and, and_true]; omega))
  · obtain ⟨t1, e1, i1⟩ := decrement_minute_spec _ hi
    obtain ⟨t2, e2, i2⟩ := increment_minute_spec _ i1
    rw [e1, Option.some_bind, e2]
    exact congrArg some (clock_inv_ext _ hi t2 _ i2
      (by simp only [clock_datetime_t.mk.injEq, true_and, and_true]; omega))
  · obtain ⟨t1, e1, i1⟩ := increment_hour_spec _ hi
    obtain ⟨t2, e2, i2⟩ := decrement_hour_spec _ i1
    rw [e1, Option.some_bind, e2]
    exact congrArg some (clock_inv_ext _ hi t2 _ i2
      (by simp only [clock_datetime_t.mk.injEq, true_and, and_true]; omega))
  · obtain ⟨t1, e1, i1⟩ := decrement_hour_spec _ hi
    obtain ⟨t2, e2, i2⟩ := increment_hour_spec _ i1
    rw [e1, Option.some_bind, e2]
    exact congrArg some (clock_inv_ext _ hi t2 _ i2
      (by simp only [clock_datetime_t.mk.injEq, true_and, and_true]; omega))
  · obtain ⟨t1, e1, i1⟩ := increment_day_spec _ hi
    obtain ⟨t2, e2, i2⟩ := decrement_day_spec _ i1
    rw [e1, Option.some_bind, e2]
    exact congrArg some (clock_inv_ext _ hi t2 _ i2
      (by simp only [clock_datetime_t.mk.injEq, true_and, and_true]; split <;> split <;> omega))
  · obtain ⟨t1, e1, i1⟩ := decrement_day_spec _ hi
    obtain ⟨t2, e2, i2⟩ := increment_day_spec _ i1
    rw [e1, Option.some_bind, e2]
    exact congrArg some (clock_inv_ext _ hi t2 _ i2
      (by simp only [clock_datetime_t.mk.injEq, true_and, and_true]; split <;> split <;> omega))

theorem C22_rotation_inverse_witness :
    Reachable ⟨1709251199, ⟨2024, 2, 29, 23, 59, 59⟩⟩
    ∧ Mc_Clock_Increment_Day ⟨1709251199, ⟨2024, 2, 29, 23, 59, 59⟩⟩
        = some ⟨1706831999, ⟨2024, 2, 1, 23, 59, 59⟩⟩
    ∧ Mc_Clock_Decrement_Day ⟨1706831999, ⟨2024, 2, 1, 23, 59, 59⟩⟩
        = some ⟨1709251199, ⟨2024, 2, 29, 23, 59, 59⟩⟩
    ∧ (Mc_Clock_Increment_Day ⟨1709251199, ⟨2024, 2, 29, 23, 59, 59⟩⟩).bind
        Mc_Clock_Decrement_Day = some ⟨1709251199, ⟨2024, 2, 29, 23, 59, 59⟩⟩
    ∧ (Mc_Clock_Decrement_Second ⟨1709251199, ⟨2024, 2, 29, 23, 59, 59⟩⟩).bind
        Mc_Clock_Increment_Second = some ⟨1709251199, ⟨2024, 2, 29, 23, 59, 59⟩⟩ :=
  have hr : Reachable ⟨1709251199, ⟨2024, 2, 29, 23, 59, 59⟩⟩ :=
    reachable_run [Op.set_date 2024 2 29, Op.set_time 23 59 59]
      ⟨1577836800, ⟨2020, 1, 1, 0, 0, 0⟩⟩ _
      (Reachable.new _ (by decide)) (by decide) (by decide)
  ⟨hr, by decide, by decide,
    (C22_rotation_inverse ⟨1709251199, ⟨2024, 2, 29, 23, 59, 59⟩⟩ hr).2.2.2.2.2.2.1,
    (C22_rotation_inverse ⟨1709251199, ⟨2024, 2, 29, 23, 59, 59⟩⟩ hr).2.1⟩

end McClock
